import Mathlib

/-!
Verification of the campaign scheduling and sequential delivery engine of the
whatsapp bulk-sender server (source file `part_002`, the Express server).

The JavaScript source is shallowly embedded: pure helpers become Lean
functions, the mutable server globals become an explicit `ServerState`
record threaded through every operation, and the asynchronous environment
(browser automation results, pause requests arriving during awaits) is
modelled by explicit per-recipient environment records.  JS `Map`s are
modelled as association lists with JS-`Map` get/set/delete semantics.
-/

namespace WaServer

/-! ## String helpers (JS `String.prototype.includes`, `toLowerCase`) -/

/-- Decides whether the list `p` occurs as a prefix of `l`. -/
def listStarts : List Char → List Char → Bool
  | [], _ => true
  | _ :: _, [] => false
  | a :: p, b :: l => a == b && listStarts p l

/-- Decides whether `p` occurs as a contiguous sublist of `l`
(JS `String.prototype.includes` on char lists). -/
def listHasSub (p : List Char) : List Char → Bool
  | [] => listStarts p []
  | c :: rest => listStarts p (c :: rest) || listHasSub p rest

/-- JS `s.includes(pat)`. -/
def strContains (s pat : String) : Bool :=
  listHasSub pat.toList s.toList

/-- JS `s.startsWith(pat)`. -/
def strStarts (s pat : String) : Bool :=
  listStarts pat.toList s.toList

/-- JS `s.substring(n)` for a character count `n`. -/
def strDrop (s : String) (n : Nat) : String :=
  String.mk (s.toList.drop n)

/-- JS `s.toLowerCase()` (ASCII letters, which is all the source compares). -/
def strLower (s : String) : String :=
  String.mk (s.toList.map Char.toLower)

/-! ## Recipient validator/formatter (`validateAndFormatPhoneNumber`,
source lines 1899-1930) -/

/-- JS `phoneNumber.replace(/[+\-\s]/g, '')`: removes `+`, `-` and
whitespace characters. -/
def stripSeps (s : String) : String :=
  String.mk (s.toList.filter (fun c => !(c == '+' || c == '-' || c.isWhitespace)))

/-- JS `/^\d+$/.test(s)`: nonempty and all decimal digits. -/
def isAllDigits (s : String) : Bool :=
  !(s.toList.isEmpty) && s.toList.all Char.isDigit

/-- JS `/[a-zA-Z]/.test(s)`. -/
def hasLetter (s : String) : Bool :=
  s.toList.any Char.isAlpha

/-- Embedding of `validateAndFormatPhoneNumber(phoneNumber, rowIndex)`:
header rejection on row 0, separator stripping, all-digit check, minimum
length 10, then country-code normalisation with the `@c.us` suffix. -/
def validateAndFormatPhoneNumber (phoneNumber : String) (rowIndex : Nat) : Option String :=
  if rowIndex == 0 && hasLetter phoneNumber && !(isAllDigits (stripSeps phoneNumber)) then
    none
  else
    let cleanNumber := stripSeps phoneNumber
    if !(isAllDigits cleanNumber) then
      none
    else if cleanNumber.length < 10 then
      none
    else if strStarts phoneNumber "91" && phoneNumber.length == 12 then
      some (phoneNumber ++ "@c.us")
    else if strStarts phoneNumber "+91" then
      some (strDrop phoneNumber 1 ++ "@c.us")
    else if phoneNumber.length == 10 then
      some ("91" ++ phoneNumber ++ "@c.us")
    else
      some (phoneNumber ++ "@c.us")

/-! ## Failure classifier (`isNumberUnavailableError`, source lines 1407-1435) -/

/-- The `unavailablePatterns` list from the source. -/
def unavailablePatterns : List String :=
  ["waiting for selector", "timeout", "navigation timeout", "networkidle2",
   "element not found", "selector not found", "page not found", "invalid number",
   "number not found", "failed: waiting failed", "exceeded", "not available",
   "unavailable", "invalid phone number", "phone number not found"]

/-- Embedding of `isNumberUnavailableError(error)` applied to the error
message: lowercases the message, checks the pattern list, plus the specific
timeout check. -/
def isNumberUnavailableError (msg : String) : Bool :=
  let m := strLower msg
  unavailablePatterns.any (fun p => strContains m p) ||
    (strContains m "timeout" && (strContains m "30000ms" || strContains m "15000ms"))

/-- Error category assigned by the delivery loop's catch block
(source lines 1801-1814): `unavailable`, `connection` or `failed`, together
with the recorded error message.  The connection test uses the raw
(uncased) message, exactly as `error.message.includes(...)` does. -/
def classifyCatch (e : String) : String × String :=
  if isNumberUnavailableError e then ("unavailable", "Number not available on WhatsApp")
  else if strContains e "connection" || strContains e "timeout" then ("connection", e)
  else ("failed", e)

/-! ## Send-attempt retry loop (source lines 1705-1750)

The browser automation outcome of each individual attempt is supplied by the
environment: `success` (message delivered), `jsError msg` (the attempt threw
with that message), or `hang` (the attempt never returns - a wedged
puppeteer await, the failure mode the stall monitor exists for).  An empty
environment also models a never-returning attempt. -/

inductive AttemptResult where
  | success
  | jsError (msg : String)
  | hang
deriving DecidableEq, Repr

/-- Result of the per-recipient retry `while` loop: the send succeeded, an
error was thrown out of the loop, or an attempt never returned.  Carries the
number of attempts started. -/
inductive SendPhase where
  | sentOk (attemptsMade : Nat)
  | thrown (errMsg : String) (attemptsMade : Nat)
  | hung (attemptsMade : Nat)
deriving DecidableEq, Repr

/-- `const maxAttempts = 3`. -/
def maxAttempts : Nat := 3

/-- Embedding of the retry `while` loop: attempt, and on a thrown error
short-circuit when `isNumberUnavailableError` classifies it (re-throwing a
wrapped message), otherwise retry while under the attempt ceiling, else
re-throw.  `made` is the number of attempts already started. -/
def runSendAttempts : List AttemptResult → Nat → SendPhase
  | [], made => .hung made
  | .success :: _, made => .sentOk (made + 1)
  | .hang :: _, made => .hung (made + 1)
  | .jsError e :: rest, made =>
    if isNumberUnavailableError e then
      .thrown ("Number not available on WhatsApp: " ++ e) (made + 1)
    else if made + 1 < maxAttempts then
      runSendAttempts rest (made + 1)
    else
      .thrown e (made + 1)

/-- Number of attempts started, read off a `SendPhase`. -/
def attemptsOf : SendPhase → Nat
  | .sentOk n => n
  | .thrown _ n => n
  | .hung n => n

/-! ## Campaign state and server globals (source lines 44-65, 1247-1261)

Timestamps are milliseconds as `Nat`.  The media file, being only a payload,
is not modelled. -/

structure Campaign where
  campaignId : String
  phoneNumbers : List String
  message : String
  delayRange : String
  currentIndex : Nat
  sentCount : Nat
  failedCount : Nat
  isPaused : Bool
  createdAt : Nat
  startedAt : Nat
  pausedAt : Option Nat
  resumedAt : Option Nat
  lastActivity : Nat
deriving DecidableEq, Repr

/-- Socket.io events the engine emits that the claims observe.
`humanBehavior` narration events are omitted from the model. -/
inductive Event where
  | bulkSendStart (total : Nat) (campaignId : String)
  | messageSent (number : String) (statusStr : String) (progress : Nat) (total : Nat)
      (campaignId : Option String)
  | bulkSendComplete (total success failed unavailable connection general : Nat)
      (campaignId : Option String)
  | campaignStuck (campaignId : String)
  | statusEv (authenticated ready : Bool)
deriving DecidableEq, Repr

/-- HTTP responses of the campaign endpoints (body reduced to the message). -/
inductive Resp where
  | ok (msg : String)
  | badRequest (msg : String)
  | notFound (msg : String)
  | serverError (msg : String)
deriving DecidableEq, Repr

/-- The server's mutable globals.  `clientPresent` models `client !== null`
together with a live browser page; `runningLoops` counts invocations of
`sendMessagesSequentially` that have started and not yet returned (a loop
blocked forever inside an attempt never returns). -/
structure ServerState where
  activeCampaigns : List (String × Campaign)
  pausedCampaigns : List (String × Campaign)
  clientPresent : Bool
  isClientReady : Bool
  isClientAuthenticated : Bool
  connectionFailureCount : Nat
  lastSuccessfulConnection : Nat
  runningLoops : Nat
  events : List Event
deriving DecidableEq, Repr

/-! JS `Map` operations on the association lists (keys are unique in every
state the server builds; `cmDel` removes every binding of the key, which
coincides with `Map.delete` there). -/

/-- JS `map.get(k)`. -/
def cmGet : List (String × Campaign) → String → Option Campaign
  | [], _ => none
  | (k', v) :: rest, k => if k' == k then some v else cmGet rest k

/-- JS `map.set(k, v)`: replace the binding in place, else append. -/
def cmSet : List (String × Campaign) → String → Campaign → List (String × Campaign)
  | [], k, v => [(k, v)]
  | (k', v') :: rest, k, v =>
    if k' == k then (k, v) :: rest else (k', v') :: cmSet rest k v

/-- JS `map.delete(k)`. -/
def cmDel (m : List (String × Campaign)) (k : String) : List (String × Campaign) :=
  m.filter (fun p => !(p.1 == k))

/-- Appends an emitted socket event. -/
def emitEv (s : ServerState) (e : Event) : ServerState :=
  { s with events := s.events ++ [e] }

/-! ## Forced reconnection and keep-alive (source lines 67-98, 169-203) -/

/-- Embedding of `forceReconnection()`: resets the readiness flags and the
failure counter, emits a status update and destroys the client.  The
campaign maps are not touched. -/
def forceReconnection (s : ServerState) : ServerState :=
  let s1 := { s with isClientReady := false, isClientAuthenticated := false,
                     connectionFailureCount := 0 }
  let s2 := emitEv s1 (.statusEv false false)
  { s2 with clientPresent := false }

/-- Embedding of one `keepAliveInterval` tick: on a healthy `getState` reset
the failure counter, otherwise count the failure and force reconnection at
the `MAX_CONNECTION_FAILURES = 3` threshold.  `connected` is the outcome of
the `getState` probe. -/
def keepAliveCheck (s : ServerState) (now : Nat) (connected : Bool) : ServerState :=
  if s.clientPresent && s.isClientReady && s.isClientAuthenticated then
    if connected then
      { s with lastSuccessfulConnection := now, connectionFailureCount := 0 }
    else
      let s' := { s with connectionFailureCount := s.connectionFailureCount + 1 }
      if 3 ≤ s'.connectionFailureCount then forceReconnection s' else s'
  else s

/-! ## Stuck-campaign monitor (`checkStuckCampaigns`, source lines 226-254) -/

/-- `const stuckThreshold = 5 * 60 * 1000`. -/
def stuckThreshold : Nat := 5 * 60 * 1000

/-- Embedding of one `checkStuckCampaigns()` sweep: for every active,
unpaused campaign whose time since last activity exceeds the threshold, a
`campaign_stuck` event is emitted and a `continueCampaign` restart is
scheduled (`setTimeout`, 2s).  Returns the new state and the list of
campaign ids whose restart was scheduled by this sweep. -/
def checkStuckCampaigns (s : ServerState) (now : Nat) : ServerState × List String :=
  let stale := s.activeCampaigns.filter
    (fun p => !p.2.isPaused && decide (stuckThreshold < now - p.2.lastActivity))
  ({ s with events := s.events ++ stale.map (fun p => Event.campaignStuck p.1) },
   stale.map (fun p => p.1))

/-! ## Pause and resume endpoints (source lines 820-913) -/

/-- Embedding of `POST /api/campaign/pause`: flags the active campaign as
paused and moves it from the active map to the paused map. -/
def pauseEndpoint (s : ServerState) (campaignId : Option String) (now : Nat) :
    ServerState × Resp :=
  match campaignId with
  | none => (s, .badRequest "Campaign ID is required")
  | some id =>
    match cmGet s.activeCampaigns id with
    | none => (s, .notFound "Campaign not found or not active")
    | some c =>
      let c' := { c with isPaused := true, pausedAt := some now }
      ({ s with pausedCampaigns := cmSet s.pausedCampaigns id c',
                activeCampaigns := cmDel s.activeCampaigns id },
       .ok "Campaign paused successfully")

/-- Embedding of `POST /api/campaign/resume`.  After moving the campaign
back into the active map the handler evaluates
`getPendingPhoneNumbers(campaignId)`; no binding of that name exists
anywhere in this server file, so the call raises a `ReferenceError`
("getPendingPhoneNumbers is not defined") which the handler's `catch` turns
into an HTTP 500 - `continueCampaign` on the following line is never
reached, and the pool move already performed is not rolled back. -/
def resumeEndpoint (s : ServerState) (campaignId : Option String) (now : Nat) :
    ServerState × Resp :=
  match campaignId with
  | none => (s, .badRequest "Campaign ID is required")
  | some id =>
    match cmGet s.pausedCampaigns id with
    | none => (s, .notFound "Campaign not found or not paused")
    | some c =>
      let c' := { c with isPaused := false, resumedAt := some now, lastActivity := now }
      ({ s with activeCampaigns := cmSet s.activeCampaigns id c',
                pausedCampaigns := cmDel s.pausedCampaigns id },
       .serverError "Failed to resume campaign: getPendingPhoneNumbers is not defined")

/-! ## Sequential delivery loop (`sendMessagesSequentially`,
source lines 1657-1889)

The asynchronous environment of one loop iteration is a `RecipEnv`:
`pauseBefore` models a pause request serviced during the delay preceding
this iteration (before the loop's pause check runs); `pauseDuringSend`
models a pause request serviced while this recipient's send attempt is in
flight (after the pause check, before the counter update);
`resumeDuringDelay` models a resume request serviced during the
human-behavior delay that follows this recipient's successful send (the
resume endpoint re-activates the campaign before crashing, see
`resumeEndpoint`; the delay is skipped after the last recipient of the
passed list, so the flag only takes effect when another recipient follows);
`connOk` is the outcome of the browser-page/`getState` probes inside
`validateConnection`; `attempts` feeds the retry loop one result per
attempt. -/

structure RecipEnv where
  pauseBefore : Bool
  pauseDuringSend : Bool
  resumeDuringDelay : Bool
  connOk : Bool
  attempts : List AttemptResult
deriving DecidableEq, Repr

/-- Environment of an iteration whose send attempt succeeds at once, with no
interleaved pause or resume request. -/
def okEnv : RecipEnv := ⟨false, false, false, true, [.success]⟩

/-- Environment of an iteration whose attempt never returns. -/
def hangEnv : RecipEnv := ⟨false, false, false, true, []⟩

/-- How one invocation of the loop ended: the pause check returned early,
an attempt never came back (the invocation is blocked forever inside an
await), or the `for` loop exhausted the list. -/
inductive ExitKind where
  | pausedExit
  | hungExit
  | finished
deriving DecidableEq, Repr

/-- The loop's local accumulators (`results`, `successCount`,
`failureCount`) next to the server state. -/
structure RunState where
  st : ServerState
  results : List (String × String)
  successCount : Nat
  failureCount : Nat
deriving DecidableEq, Repr

/-- Effect of a pause request for `campaignId` arriving at an await point of
the loop: the pause endpoint runs to completion (its response is dropped
here). -/
def applyPause (s : ServerState) (campaignId : Option String) (now : Nat) : ServerState :=
  (pauseEndpoint s campaignId now).1

/-- Effect of a resume request for `campaignId` arriving at an await point of
the loop: the resume endpoint runs, moves the campaign back into the active
pool and crashes on `getPendingPhoneNumbers` (its 500 response is dropped
here; the pool move persists). -/
def applyResume (s : ServerState) (campaignId : Option String) (now : Nat) : ServerState :=
  (resumeEndpoint s campaignId now).1

/-- The resume window at the end of a successful iteration: when the flag is
set, the resume endpoint is serviced at the inter-message-delay await. -/
def resumeIf (f : Bool) (s : ServerState) (cid : Option String) (now : Nat) : ServerState :=
  if f then applyResume s cid now else s

/-- Embedding of `validateConnection()` as used by the loop: returns the
thrown error message, if any, next to the updated state (the page/state
probe failure path counts a connection failure and can itself force
reconnection; the early `client`/readiness throws happen before that
`try`). -/
def validateConnection (s : ServerState) (connOk : Bool) (now : Nat) :
    ServerState × Option String :=
  if !s.clientPresent then
    (s, some "WhatsApp client is not initialized")
  else if !s.isClientReady || !s.isClientAuthenticated then
    (s, some "WhatsApp client is not ready or authenticated")
  else if !connOk then
    let s' := { s with connectionFailureCount := s.connectionFailureCount + 1 }
    (if 3 ≤ s'.connectionFailureCount then forceReconnection s' else s',
     some "Browser page is closed")
  else
    ({ s with lastSuccessfulConnection := now, connectionFailureCount := 0 }, none)

/-- Campaign counter update after a successful send (source lines
1755-1762): only applies when the campaign is still in the active map. -/
def recordSuccess (cid : Option String) (s : ServerState) (now : Nat) : ServerState :=
  match cid with
  | none => s
  | some id =>
    match cmGet s.activeCampaigns id with
    | none => s
    | some c =>
      let c' := { c with sentCount := c.sentCount + 1, lastActivity := now }
      { s with activeCampaigns := cmSet s.activeCampaigns id c' }

/-- Campaign counter update in the catch block (source lines 1819-1826). -/
def recordFailure (cid : Option String) (s : ServerState) (now : Nat) : ServerState :=
  match cid with
  | none => s
  | some id =>
    match cmGet s.activeCampaigns id with
    | none => s
    | some c =>
      let c' := { c with failedCount := c.failedCount + 1, lastActivity := now }
      { s with activeCampaigns := cmSet s.activeCampaigns id c' }

/-- One iteration of the `for` loop for recipient `pn` at offset `i`:
pause check, `currentIndex` update, connection validation, retry loop, then
either the success path or the catch block.  After a successful send that is
not the last of the passed list the loop awaits the inter-message delay,
where a resume request can be serviced (`resumeDuringDelay`); the catch
block reaches the next iteration without an await, so no resume can land
there.  Returns `some exit` when the invocation ends here. -/
def stepRecipient (cid : Option String) (startIndex totalLen now : Nat) (pn : String)
    (env : RecipEnv) (i : Nat) (rs : RunState) : RunState × Option ExitKind :=
  let currentIndex := startIndex + i
  let s0 := if env.pauseBefore then applyPause rs.st cid now else rs.st
  match cid with
  | some id =>
    (match cmGet s0.activeCampaigns id with
     | none => ({ rs with st := s0 }, some .pausedExit)
     | some c =>
       if c.isPaused then ({ rs with st := s0 }, some .pausedExit)
       else
         let c0 := { c with currentIndex := currentIndex }
         let s1 := { s0 with activeCampaigns := cmSet s0.activeCampaigns id c0 }
         match validateConnection s1 env.connOk now with
         | (s2, some errMsg) =>
           let cat := classifyCatch errMsg
           let s3 := recordFailure cid s2 now
           let s4 := emitEv s3
             (.messageSent pn cat.1 (currentIndex + 1) (totalLen + startIndex) cid)
           ({ st := s4, results := rs.results ++ [(pn, cat.1)],
              successCount := rs.successCount, failureCount := rs.failureCount + 1 },
            none)
         | (s2, none) =>
           match runSendAttempts env.attempts 0 with
           | .hung _ => ({ rs with st := s2 }, some .hungExit)
           | .sentOk _ =>
             let s3 := if env.pauseDuringSend then applyPause s2 cid now else s2
             let s4 := recordSuccess cid s3 now
             let s5 := emitEv s4
               (.messageSent pn "sent" (currentIndex + 1) (totalLen + startIndex) cid)
             let s6 := resumeIf (env.resumeDuringDelay && decide (i + 1 < totalLen))
               s5 cid now
             ({ st := s6, results := rs.results ++ [(pn, "sent")],
                successCount := rs.successCount + 1, failureCount := rs.failureCount },
              none)
           | .thrown e _ =>
             let s3 := if env.pauseDuringSend then applyPause s2 cid now else s2
             let cat := classifyCatch e
             let s4 := recordFailure cid s3 now
             let s5 := emitEv s4
               (.messageSent pn cat.1 (currentIndex + 1) (totalLen + startIndex) cid)
             ({ st := s5, results := rs.results ++ [(pn, cat.1)],
                successCount := rs.successCount, failureCount := rs.failureCount + 1 },
              none))
  | none =>
    match validateConnection s0 env.connOk now with
    | (s2, some errMsg) =>
      let cat := classifyCatch errMsg
      let s4 := emitEv s2
        (.messageSent pn cat.1 (currentIndex + 1) (totalLen + startIndex) cid)
      ({ st := s4, results := rs.results ++ [(pn, cat.1)],
         successCount := rs.successCount, failureCount := rs.failureCount + 1 },
       none)
    | (s2, none) =>
      match runSendAttempts env.attempts 0 with
      | .hung _ => ({ rs with st := s2 }, some .hungExit)
      | .sentOk _ =>
        let s5 := emitEv s2
          (.messageSent pn "sent" (currentIndex + 1) (totalLen + startIndex) cid)
        ({ st := s5, results := rs.results ++ [(pn, "sent")],
           successCount := rs.successCount + 1, failureCount := rs.failureCount },
         none)
      | .thrown e _ =>
        let cat := classifyCatch e
        let s5 := emitEv s2
          (.messageSent pn cat.1 (currentIndex + 1) (totalLen + startIndex) cid)
        ({ st := s5, results := rs.results ++ [(pn, cat.1)],
           successCount := rs.successCount, failureCount := rs.failureCount + 1 },
         none)

/-- The `for` loop over the remaining recipients. -/
def loopGo (cid : Option String) (startIndex totalLen now : Nat) :
    List String → List RecipEnv → Nat → RunState → RunState × ExitKind
  | [], _, _, rs => (rs, .finished)
  | pn :: rest, envs, i, rs =>
    match stepRecipient cid startIndex totalLen now pn (envs.headD hangEnv) i rs with
    | (rs', some ek) => (rs', ek)
    | (rs', none) => loopGo cid startIndex totalLen now rest envs.tail (i + 1) rs'

/-- Embedding of `sendMessagesSequentially`.  After a normally finished loop
the completion block reads the campaign, computes the failure breakdown from
`results`, deletes the campaign from the active map and emits
`bulk_send_complete`; an invocation that hung never returns, so it keeps its
slot in `runningLoops`. -/
def sendMessagesSequentially (s : ServerState) (phoneNumbers : List String)
    (cid : Option String) (startIndex : Nat) (envs : List RecipEnv) (now : Nat) :
    ServerState :=
  let s0 := { s with runningLoops := s.runningLoops + 1 }
  let r := loopGo cid startIndex phoneNumbers.length now phoneNumbers envs 0
      ⟨s0, [], 0, 0⟩
  match r.2 with
  | .hungExit => r.1.st
  | .pausedExit => { r.1.st with runningLoops := r.1.st.runningLoops - 1 }
  | .finished =>
    let s1 := { r.1.st with runningLoops := r.1.st.runningLoops - 1 }
    match cid with
    | none => s1
    | some id =>
      match cmGet s1.activeCampaigns id with
      | none => s1
      | some c =>
        let unavailableCount := (r.1.results.filter (fun p => p.2 == "unavailable")).length
        let connectionCount := (r.1.results.filter (fun p => p.2 == "connection")).length
        let generalCount := (r.1.results.filter (fun p => p.2 == "failed")).length
        let s2 := { s1 with activeCampaigns := cmDel s1.activeCampaigns id }
        emitEv s2 (.bulkSendComplete c.phoneNumbers.length c.sentCount c.failedCount
          unavailableCount connectionCount generalCount (some id))

/-- Embedding of `continueCampaign(campaignId)` (source lines 1615-1655):
skip when missing or paused; when the client is not ready the code only
reschedules itself (a later invocation models that), otherwise emit
`bulk_send_start` and run the loop over the full recipient list with
`startIndex 0` ("Start from beginning"). -/
def continueCampaign (s : ServerState) (id : String) (envs : List RecipEnv) (now : Nat) :
    ServerState :=
  match cmGet s.activeCampaigns id with
  | none => s
  | some c =>
    if c.isPaused then s
    else if !s.isClientReady || !s.isClientAuthenticated then s
    else
      let s1 := emitEv s (.bulkSendStart c.phoneNumbers.length id)
      sendMessagesSequentially s1 c.phoneNumbers (some id) 0 envs now

/-! ## Executions

An execution is a sequence of externally triggered operations applied to the
initial state: client lifecycle events, campaign submission
(`POST /api/upload-and-send` storing the fresh campaign state and emitting
`bulk_send_start`), the delayed/supervisory/manual invocations of
`continueCampaign` (`startLoop`), the pause and resume endpoints, a
`checkStuckCampaigns` sweep, and a keep-alive tick. -/

inductive Action where
  | clientAuthenticated
  | clientReady
  | submit (id : String) (numbers : List String) (message : String)
      (delayRange : String) (now : Nat)
  | startLoop (id : String) (envs : List RecipEnv) (now : Nat)
  | pauseReq (id : String) (now : Nat)
  | resumeReq (id : String) (now : Nat)
  | healthTick (now : Nat)
  | keepAlive (connected : Bool) (now : Nat)

/-- The campaign state stored by the upload endpoint
(source lines 1247-1262). -/
def freshCampaign (id : String) (numbers : List String) (message delayRange : String)
    (now : Nat) : Campaign :=
  { campaignId := id, phoneNumbers := numbers, message := message,
    delayRange := delayRange, currentIndex := 0, sentCount := 0, failedCount := 0,
    isPaused := false, createdAt := now, startedAt := now, pausedAt := none,
    resumedAt := none, lastActivity := now }

def applyAction (s : ServerState) : Action → ServerState
  | .clientAuthenticated => { s with isClientAuthenticated := true }
  | .clientReady => { s with isClientReady := true }
  | .submit id numbers message delayRange now =>
    let c := freshCampaign id numbers message delayRange now
    let s1 := { s with activeCampaigns := cmSet s.activeCampaigns id c }
    emitEv s1 (.bulkSendStart numbers.length id)
  | .startLoop id envs now => continueCampaign s id envs now
  | .pauseReq id now => (pauseEndpoint s (some id) now).1
  | .resumeReq id now => (resumeEndpoint s (some id) now).1
  | .healthTick now => (checkStuckCampaigns s now).1
  | .keepAlive connected now => keepAliveCheck s now connected

/-- Server start: client object created, not yet authenticated or ready,
no campaigns. -/
def initState : ServerState :=
  { activeCampaigns := [], pausedCampaigns := [], clientPresent := true,
    isClientReady := false, isClientAuthenticated := false,
    connectionFailureCount := 0, lastSuccessfulConnection := 0,
    runningLoops := 0, events := [] }

def applyActions (s : ServerState) (acts : List Action) : ServerState :=
  acts.foldl applyAction s

/-- A state the server can be in after some execution. -/
def Reachable (s : ServerState) : Prop :=
  ∃ acts, applyActions initState acts = s

/-! ## Observables and claim statements -/

/-- Counter invariant of one campaign: `sentCount + failedCount` does not
exceed the number of recipients. -/
def sumOkB (c : Campaign) : Bool :=
  decide (c.sentCount + c.failedCount ≤ c.phoneNumbers.length)

/-- The counter invariant over both campaign pools. -/
def storeBoundB (s : ServerState) : Bool :=
  s.activeCampaigns.all (fun p => sumOkB p.2) &&
    s.pausedCampaigns.all (fun p => sumOkB p.2)

/-- Every completion summary reports `success + failed = total`. -/
def completionOkB (s : ServerState) : Bool :=
  s.events.all fun ev =>
    match ev with
    | .bulkSendComplete total succ fail _ _ _ _ => succ + fail == total
    | _ => true

/-- Claim C1 as stated: on every reachable state (so at every point of every
execution, pause/resume/supervisory restarts included) the counters of every
stored campaign are bounded by its recipient count, and every completion
summary reaches the count exactly. -/
def ClaimC1 : Prop := ∀ s, Reachable s → storeBoundB s = true ∧ completionOkB s = true

/-- Decides whether `p` is a leading segment of `l` (element-wise equal
prefix). -/
def leadsB : List String → List String → Bool
  | [], _ => true
  | _ :: _, [] => false
  | a :: p, b :: l => a == b && leadsB p l

/-- The ordered list of recipients the delivery loop has attempted for
campaign `id`, read off the per-recipient progress events. -/
def eventsFor (s : ServerState) (id : String) : List String :=
  s.events.filterMap fun ev =>
    match ev with
    | .messageSent number _ _ _ (some cid) => if cid == id then some number else none
    | _ => none

/-- Claim C2 as stated: delivery always continues from the saved position,
never re-attempting earlier recipients, so across any execution the attempt
sequence of a stored campaign is a repetition-free in-order prefix of its
recipient list. -/
def ClaimC2 : Prop := ∀ s, Reachable s →
  ∀ p ∈ s.activeCampaigns ++ s.pausedCampaigns, leadsB (eventsFor s p.1) p.2.phoneNumbers = true

/-- Claim C4 as stated: at most one delivery loop is executing at any
instant (`runningLoops` counts loop invocations that have started and not
yet returned). -/
def ClaimC4 : Prop := ∀ s, Reachable s → s.runningLoops ≤ 1

/-- Claim C5 as stated, over the retry loop: a recipient-unavailable first
failure is never followed by another attempt; a first failure that is
neither unavailable- nor connection/transient-classified is not retried
either (the claim allows retries only for connection/transient errors); and
no recipient sees more than 3 attempts. -/
def ClaimC5 : Prop :=
  (∀ e rest, isNumberUnavailableError e = true →
    attemptsOf (runSendAttempts (.jsError e :: rest) 0) = 1) ∧
  (∀ e rest, isNumberUnavailableError e = false →
    (strContains e "connection" || strContains e "timeout") = false →
    attemptsOf (runSendAttempts (.jsError e :: rest) 0) ≤ 1) ∧
  (∀ envs, attemptsOf (runSendAttempts envs 0) ≤ 3)

/-- Claim C8 as stated: once a stuck-campaign sweep has scheduled a
supervisory restart for a campaign, a later sweep does not schedule another
one for it (exactly one restart attempt, not one per sweep). -/
def ClaimC8 : Prop := ∀ s id now1 now2,
  id ∈ (checkStuckCampaigns s now1).2 →
  id ∈ (checkStuckCampaigns (checkStuckCampaigns s now1).1 now2).2 → False

/-- Execution refuting C1: a campaign of three recipients runs, delivers
two and then an attempt wedges (never returns); the stuck-campaign sweep
schedules a supervisory restart, which re-runs the full list from index 0
and re-increments the counters past the recipient count. -/
def c1Trace : List Action :=
  [.clientAuthenticated, .clientReady,
   .submit "c1" ["a@c.us", "b@c.us", "x@c.us"] "hi" "30-60" 0,
   .startLoop "c1" [okEnv, okEnv, hangEnv] 1000,
   .healthTick 400000,
   .startLoop "c1" [okEnv, okEnv, hangEnv] 402000]

/-- Execution refuting C2: a two-recipient campaign is paused after the
first recipient, resumed, and the subsequent loop invocation starts over at
recipient index 0, re-attempting the already-sent first recipient. -/
def c2Trace : List Action :=
  [.clientAuthenticated, .clientReady,
   .submit "c2" ["a@c.us", "b@c.us"] "hi" "30-60" 0,
   .startLoop "c2" [okEnv, ⟨true, false, false, true, [.success]⟩] 1000,
   .resumeReq "c2" 2000,
   .startLoop "c2" [okEnv, hangEnv] 3000]

/-- Execution refuting C4: a first campaign's delivery loop wedges inside an
attempt (still executing); a second campaign is submitted and its own loop
starts 2 seconds later - two delivery loops in flight at once, no queueing. -/
def c4Trace : List Action :=
  [.clientAuthenticated, .clientReady,
   .submit "a1" ["a@c.us"] "hi" "30-60" 0,
   .startLoop "a1" [hangEnv] 1000,
   .submit "b1" ["b@c.us"] "hi" "30-60" 2000,
   .startLoop "b1" [hangEnv] 3000]

/-- State refuting C8: one active campaign, last activity at time 0. -/
def c8State : ServerState :=
  { initState with activeCampaigns :=
      [("c8", freshCampaign "c8" ["a@c.us"] "m" "30-60" 0)] }

/-- Environment of an iteration during whose (successful) send attempt a
pause request is serviced. -/
def pauseMidSendEnv : RecipEnv := ⟨false, true, false, true, [.success]⟩

/-- The `message_sent` success events the loop emits for recipients
`nums` starting at loop offset `i`, with `startIndex` `st` and passed-list
length `tl`. -/
def sentEvents (id : String) (st tl : Nat) : List String → Nat → List Event
  | [], _ => []
  | pn :: rest, i =>
    .messageSent pn "sent" (st + i + 1) (tl + st) (some id) :: sentEvents id st tl rest (i + 1)

/-- Whether a `SendPhase` is a wedged attempt. -/
def isHungPhase : SendPhase → Bool
  | .hung _ => true
  | _ => false

/-- An iteration environment with no interleaved pause or resume request and
whose retry phase terminates (delivers or throws). -/
def cleanEnv (e : RecipEnv) : Bool :=
  !e.pauseBefore && !e.pauseDuringSend && !e.resumeDuringDelay &&
    !(isHungPhase (runSendAttempts e.attempts 0))

/-- Whether an event is a per-recipient progress event. -/
def isMsgEv : Event → Bool
  | .messageSent .. => true
  | _ => false

/-- Events the loop body may emit before completion (progress events, plus
the status broadcast of a forced reconnection triggered by repeated
connection-validation failures). -/
def loopEventKind : Event → Bool
  | .messageSent .. => true
  | .statusEv .. => true
  | _ => false

/-- Whether an event is a status broadcast. -/
def isStatusEv : Event → Bool
  | .statusEv .. => true
  | _ => false

/-- The run state produced by an iteration whose successful send attempt
raced with a pause request: the campaign has moved to the paused pool (with
the pause flag set and the cursor at this recipient), the success event was
still emitted, but the sent counter was not updated because the campaign had
already left the active pool. -/
def pauseStepRun (id : String) (st tl now : Nat) (pn : String) (i : Nat) (rs : RunState)
    (c : Campaign) : RunState :=
  { st := { rs.st with
      activeCampaigns := cmDel rs.st.activeCampaigns id,
      pausedCampaigns := cmSet rs.st.pausedCampaigns id
        { c with currentIndex := st + i, isPaused := true, pausedAt := some now },
      lastSuccessfulConnection := now, connectionFailureCount := 0,
      events := rs.st.events ++
        [.messageSent pn "sent" (st + i + 1) (tl + st) (some id)] },
    results := rs.results ++ [(pn, "sent")],
    successCount := rs.successCount + 1, failureCount := rs.failureCount }

/-- Campaign with the cursor moved (the loop's `currentIndex` update). -/
def withCur (c : Campaign) (ci : Nat) : Campaign :=
  { c with currentIndex := ci }

/-- Campaign after the success path's counter update. -/
def withSent (c : Campaign) (ci now : Nat) : Campaign :=
  { c with currentIndex := ci, sentCount := c.sentCount + 1, lastActivity := now }

/-- Campaign after the catch path's counter update. -/
def withFail (c : Campaign) (ci now : Nat) : Campaign :=
  { c with currentIndex := ci, failedCount := c.failedCount + 1, lastActivity := now }

/-- State with one campaign written into the active pool. -/
def setActive (s : ServerState) (id : String) (c : Campaign) : ServerState :=
  { s with activeCampaigns := cmSet s.activeCampaigns id c }

/-- Campaign counter bound for one id over both pools. -/
def campBound (s : ServerState) (id : String) (b : Nat) : Prop :=
  (∀ c, cmGet s.activeCampaigns id = some c → c.sentCount + c.failedCount ≤ b) ∧
  (∀ c, cmGet s.pausedCampaigns id = some c → c.sentCount + c.failedCount ≤ b)

/-- Recipient-list stability for one id over both pools: wherever the
campaign sits, its stored recipient list is `ns`. -/
def campPhones (s : ServerState) (id : String) (ns : List String) : Prop :=
  (∀ c, cmGet s.activeCampaigns id = some c → c.phoneNumbers = ns) ∧
  (∀ c, cmGet s.pausedCampaigns id = some c → c.phoneNumbers = ns)

/-- A paused two-recipient campaign with one recipient already processed. -/
def c3WitCamp : Campaign :=
  { freshCampaign "w3" ["a@c.us", "b@c.us"] "m" "30-60" 0 with
      isPaused := true, pausedAt := some 5000, sentCount := 1, currentIndex := 1 }

/-- A state holding `c3WitCamp` in the paused pool. -/
def c3WitState : ServerState :=
  { initState with pausedCampaigns := [("w3", c3WitCamp)],
                   isClientReady := true, isClientAuthenticated := true }

/-- A ready state with one stored campaign per pool and the failure counter
one short of the forced-reconnection threshold. -/
def c10WitState : ServerState :=
  { initState with
      activeCampaigns := [("wa", freshCampaign "wa" ["a@c.us"] "m" "30-60" 0)],
      pausedCampaigns := [("wp", c3WitCamp)],
      isClientReady := true, isClientAuthenticated := true,
      connectionFailureCount := 2 }

/-- A two-recipient campaign with one recipient already counted (the state
left in the active pool by the crashed resume handler). -/
def c2WitCamp : Campaign :=
  { freshCampaign "w2" ["a@c.us", "b@c.us"] "m" "30-60" 0 with
      sentCount := 1, currentIndex := 1, resumedAt := some 6000 }

/-- A ready state holding `c2WitCamp` in the active pool. -/
def c2WitState : ServerState :=
  { initState with activeCampaigns := [("w2", c2WitCamp)],
                   isClientReady := true, isClientAuthenticated := true }

/-- A ready state with one delivery loop already executing. -/
def c4WitState : ServerState :=
  { initState with isClientReady := true, isClientAuthenticated := true,
                   runningLoops := 1 }

/-- A ready state with a fresh two-recipient campaign in the active pool. -/
def c9WitState : ServerState :=
  { initState with
      activeCampaigns := [("w9", freshCampaign "w9" ["a@c.us", "b@c.us"] "m" "30-60" 0)],
      isClientReady := true, isClientAuthenticated := true }

/-- A ready state with a fresh one-recipient campaign in the active pool. -/
def c1WitState : ServerState :=
  { initState with
      activeCampaigns := [("w1", freshCampaign "w1" ["a@c.us"] "m" "30-60" 0)],
      isClientReady := true, isClientAuthenticated := true }

/-- A ready state with a fresh two-recipient campaign in the active pool,
used to exhibit the pause-mid-send / resume-during-delay race. -/
def raceState : ServerState :=
  { initState with
      activeCampaigns := [("r1", freshCampaign "r1" ["a@c.us", "b@c.us"] "m" "30-60" 0)],
      isClientReady := true, isClientAuthenticated := true }

/-- The schedule of the race: a pause request lands while recipient 0's send
is in flight (the increment is lost against the paused pool), a resume
request lands during the following inter-message delay (re-activating the
campaign before the endpoint crashes), and recipient 1 proceeds normally. -/
def raceEnvs : List RecipEnv :=
  [⟨false, true, true, true, [.success]⟩, okEnv]

/-- A fresh two-recipient campaign. -/
def c7WitCamp : Campaign := freshCampaign "w7" ["a@c.us", "b@c.us"] "m" "30-60" 0

/-- A ready state with `c7WitCamp` in the active pool. -/
def c7WitSt : ServerState :=
  { initState with activeCampaigns := [("w7", c7WitCamp)],
                   isClientReady := true, isClientAuthenticated := true }

/-- The run state of a just-entered loop invocation over `c7WitCamp`. -/
def c7WitRun : RunState := ⟨c7WitSt, [], 0, 0⟩

/-- An attempt sequence that throws a generic error on all three attempts. -/
def c7Atts : List AttemptResult :=
  [.jsError "boom", .jsError "boom", .jsError "boom"]

/-! ## Map lemmas -/

theorem cmGet_cmSet_self (m : List (String × Campaign)) (k : String) (v : Campaign) :
    cmGet (cmSet m k v) k = some v := by
  induction m with
  | nil => simp [cmSet, cmGet]
  | cons p rest ih =>
    rcases p with ⟨k', v'⟩
    by_cases h : k' = k
    · subst h; simp [cmSet, cmGet]
    · simp [cmSet, cmGet, h, ih]

theorem cmGet_cmSet_ne (m : List (String × Campaign)) (k k' : String) (v : Campaign)
    (h : k' ≠ k) : cmGet (cmSet m k v) k' = cmGet m k' := by
  induction m with
  | nil => simp [cmSet, cmGet, Ne.symm h]
  | cons p rest ih =>
    rcases p with ⟨k₀, v₀⟩
    by_cases h0 : k₀ = k
    · subst h0; simp [cmSet, cmGet, Ne.symm h]
    · simp [cmSet, cmGet, h0, ih]

theorem cmGet_cmDel_self (m : List (String × Campaign)) (k : String) :
    cmGet (cmDel m k) k = none := by
  induction m with
  | nil => simp [cmDel, cmGet]
  | cons p rest ih =>
    rcases p with ⟨k₀, v₀⟩
    by_cases h0 : k₀ = k
    · subst h0; simpa [cmDel, cmGet] using ih
    · simpa [cmDel, cmGet, h0] using ih

theorem cmGet_cmDel_ne (m : List (String × Campaign)) (k k' : String) (h : k' ≠ k) :
    cmGet (cmDel m k) k' = cmGet m k' := by
  induction m with
  | nil => simp [cmDel, cmGet]
  | cons p rest ih =>
    rcases p with ⟨k₀, v₀⟩
    by_cases h0 : k₀ = k
    · subst h0; simpa [cmDel, cmGet, Ne.symm h] using ih
    · by_cases h1 : k₀ = k'
      · subst h1; simp [cmDel, cmGet, h0]
      · simpa [cmDel, cmGet, h0, h1] using ih

theorem cmSet_cmSet (m : List (String × Campaign)) (k : String) (v w : Campaign) :
    cmSet (cmSet m k v) k w = cmSet m k w := by
  induction m with
  | nil => simp [cmSet]
  | cons p rest ih =>
    rcases p with ⟨k₀, v₀⟩
    by_cases h0 : k₀ = k
    · subst h0; simp [cmSet]
    · simp [cmSet, h0, ih]

/-! ## Frame lemmas for the loop's building blocks -/

theorem applyPause_active_none (s : ServerState) (id : String) (now : Nat) :
    cmGet (applyPause s (some id) now).activeCampaigns id = none := by
  unfold applyPause pauseEndpoint
  cases h : cmGet s.activeCampaigns id with
  | none => simp [h]
  | some c => simp [h, cmGet_cmDel_self]

theorem applyPause_events (s : ServerState) (id : String) (now : Nat) :
    (applyPause s (some id) now).events = s.events := by
  unfold applyPause pauseEndpoint
  cases h : cmGet s.activeCampaigns id <;> simp [h]

theorem applyPause_runningLoops (s : ServerState) (id : String) (now : Nat) :
    (applyPause s (some id) now).runningLoops = s.runningLoops := by
  unfold applyPause pauseEndpoint
  cases h : cmGet s.activeCampaigns id <;> simp [h]

theorem validateConnection_active (s : ServerState) (b : Bool) (now : Nat) :
    (validateConnection s b now).1.activeCampaigns = s.activeCampaigns := by
  unfold validateConnection forceReconnection emitEv
  repeat' split
  all_goals simp [apply_ite ServerState.activeCampaigns]

theorem validateConnection_paused (s : ServerState) (b : Bool) (now : Nat) :
    (validateConnection s b now).1.pausedCampaigns = s.pausedCampaigns := by
  unfold validateConnection forceReconnection emitEv
  repeat' split
  all_goals simp [apply_ite ServerState.pausedCampaigns]

theorem validateConnection_runningLoops (s : ServerState) (b : Bool) (now : Nat) :
    (validateConnection s b now).1.runningLoops = s.runningLoops := by
  unfold validateConnection forceReconnection emitEv
  repeat' split
  all_goals simp [apply_ite ServerState.runningLoops]

theorem validateConnection_events (s : ServerState) (b : Bool) (now : Nat) :
    ∃ es, (validateConnection s b now).1.events = s.events ++ es ∧
      es.all isStatusEv = true := by
  unfold validateConnection forceReconnection emitEv
  by_cases h1 : (!s.clientPresent) = true
  · exact ⟨[], by simp [h1], by simp⟩
  · by_cases h2 : (!s.isClientReady || !s.isClientAuthenticated) = true
    · exact ⟨[], by simp [h1, h2], by simp⟩
    · by_cases h3 : (!b) = true
      · by_cases h4 : 2 ≤ s.connectionFailureCount
        · exact ⟨[.statusEv false false], by simp [h1, h2, h3, h4], by simp [isStatusEv]⟩
        · exact ⟨[], by simp [h1, h2, h3, h4], by simp⟩
      · exact ⟨[], by simp [h1, h2, h3], by simp⟩

theorem no_msg_of_status (es : List Event) (h : es.all isStatusEv = true) :
    es.countP isMsgEv = 0 := by
  induction es with
  | nil => simp
  | cons e rest ih =>
    simp only [List.all_cons, Bool.and_eq_true] at h
    cases e <;> simp_all [isStatusEv, isMsgEv, List.countP_cons]

theorem loopKind_of_status (es : List Event) (h : es.all isStatusEv = true) :
    es.all loopEventKind = true := by
  induction es with
  | nil => simp
  | cons e rest ih =>
    simp only [List.all_cons, Bool.and_eq_true] at h ⊢
    cases e <;> simp_all [isStatusEv, loopEventKind]

theorem campBound_mono (s : ServerState) (id : String) (b b' : Nat) (h : b ≤ b')
    (hb : campBound s id b) : campBound s id b' :=
  ⟨fun c hc => le_trans (hb.1 c hc) h, fun c hc => le_trans (hb.2 c hc) h⟩

theorem applyPause_campBound (s : ServerState) (id : String) (now : Nat) (b : Nat)
    (hb : campBound s id b) : campBound (applyPause s (some id) now) id b := by
  unfold applyPause pauseEndpoint
  cases h : cmGet s.activeCampaigns id with
  | none => simpa [h] using hb
  | some c =>
    refine ⟨fun c1 hc1 => ?_, fun c1 hc1 => ?_⟩
    · simp [h, cmGet_cmDel_self] at hc1
    · simp [h, cmGet_cmSet_self] at hc1
      have hbc := hb.1 c h
      cases hc1
      simpa using hbc

theorem cmGet_setActive_self (s : ServerState) (id : String) (c : Campaign) :
    cmGet (setActive s id c).activeCampaigns id = some c := by
  simp [setActive, cmGet_cmSet_self]

theorem campBound_setActive (s : ServerState) (id : String) (c : Campaign) (b : Nat)
    (hb : ∀ c1, cmGet s.pausedCampaigns id = some c1 →
      c1.sentCount + c1.failedCount ≤ b)
    (hc : c.sentCount + c.failedCount ≤ b) : campBound (setActive s id c) id b := by
  refine ⟨fun c1 hc1 => ?_, fun c1 hc1 => ?_⟩
  · rw [cmGet_setActive_self] at hc1
    cases hc1
    exact hc
  · exact hb c1 hc1

theorem applyPause_campPhones (s : ServerState) (id : String) (now : Nat)
    (ns : List String) (hb : campPhones s id ns) :
    campPhones (applyPause s (some id) now) id ns := by
  unfold applyPause pauseEndpoint
  cases h : cmGet s.activeCampaigns id with
  | none => simpa [h] using hb
  | some c =>
    refine ⟨fun c1 hc1 => ?_, fun c1 hc1 => ?_⟩
    · simp [h, cmGet_cmDel_self] at hc1
    · simp [h, cmGet_cmSet_self] at hc1
      have hbc := hb.1 c h
      cases hc1
      simpa using hbc

theorem applyResume_events (s : ServerState) (id : String) (now : Nat) :
    (applyResume s (some id) now).events = s.events := by
  unfold applyResume resumeEndpoint
  cases h : cmGet s.pausedCampaigns id <;> simp [h]

theorem applyResume_campBound (s : ServerState) (id : String) (now : Nat) (b : Nat)
    (hb : campBound s id b) : campBound (applyResume s (some id) now) id b := by
  unfold applyResume resumeEndpoint
  cases h : cmGet s.pausedCampaigns id with
  | none => simpa [h] using hb
  | some c =>
    refine ⟨fun c1 hc1 => ?_, fun c1 hc1 => ?_⟩
    · simp [h, cmGet_cmSet_self] at hc1
      have hbc := hb.2 c h
      cases hc1
      simpa using hbc
    · simp [h, cmGet_cmDel_self] at hc1

theorem applyResume_campPhones (s : ServerState) (id : String) (now : Nat)
    (ns : List String) (hb : campPhones s id ns) :
    campPhones (applyResume s (some id) now) id ns := by
  unfold applyResume resumeEndpoint
  cases h : cmGet s.pausedCampaigns id with
  | none => simpa [h] using hb
  | some c =>
    refine ⟨fun c1 hc1 => ?_, fun c1 hc1 => ?_⟩
    · simp [h, cmGet_cmSet_self] at hc1
      have hbc := hb.2 c h
      cases hc1
      simpa using hbc
    · simp [h, cmGet_cmDel_self] at hc1

@[simp] theorem resumeIf_false (s : ServerState) (cid : Option String) (now : Nat) :
    resumeIf false s cid now = s := rfl

@[simp] theorem resumeIf_events (f : Bool) (s : ServerState) (id : String) (now : Nat) :
    (resumeIf f s (some id) now).events = s.events := by
  cases f
  · rfl
  · simp [resumeIf, applyResume_events]

theorem resumeIf_campBound (f : Bool) (s : ServerState) (id : String) (now : Nat)
    (b : Nat) (hb : campBound s id b) :
    campBound (resumeIf f s (some id) now) id b := by
  cases f
  · exact hb
  · simpa [resumeIf] using applyResume_campBound s id now b hb

theorem resumeIf_campPhones (f : Bool) (s : ServerState) (id : String) (now : Nat)
    (ns : List String) (hb : campPhones s id ns) :
    campPhones (resumeIf f s (some id) now) id ns := by
  cases f
  · exact hb
  · simpa [resumeIf] using applyResume_campPhones s id now ns hb

theorem campPhones_setActive (s : ServerState) (id : String) (c : Campaign)
    (ns : List String)
    (hb : ∀ c1, cmGet s.pausedCampaigns id = some c1 → c1.phoneNumbers = ns)
    (hc : c.phoneNumbers = ns) : campPhones (setActive s id c) id ns := by
  refine ⟨fun c1 hc1 => ?_, fun c1 hc1 => ?_⟩
  · rw [cmGet_setActive_self] at hc1
    cases hc1
    exact hc
  · exact hb c1 hc1

/-- Invariants of one loop iteration, for an arbitrary environment (any
interleaving of pause and resume requests at the iteration's await points,
any connection and attempt outcome): (1) only progress/status events are
appended; (2) the campaign's counter sum grows by at most one, wherever the
campaign sits - the increment can also be lost when a pause lands mid-send;
(3) the campaign's stored recipient list never changes. -/
theorem step_invariants (id : String) (st tl now : Nat) (pn : String) (env : RecipEnv)
    (i : Nat) (rs : RunState) :
    (∃ es, (stepRecipient (some id) st tl now pn env i rs).1.st.events =
        rs.st.events ++ es ∧ es.all loopEventKind = true) ∧
    (∀ b, campBound rs.st id b →
      campBound (stepRecipient (some id) st tl now pn env i rs).1.st id (b + 1)) ∧
    (∀ ns, campPhones rs.st id ns →
      campPhones (stepRecipient (some id) st tl now pn env i rs).1.st id ns) := by
  by_cases hpb : env.pauseBefore = true
  · have hstep : stepRecipient (some id) st tl now pn env i rs =
        ({ rs with st := applyPause rs.st (some id) now }, some .pausedExit) := by
      simp [stepRecipient, hpb, applyPause_active_none]
    rw [hstep]
    refine ⟨⟨[], by simp [applyPause_events], rfl⟩, ?_, ?_⟩
    · intro b hb
      exact campBound_mono _ _ _ _ (Nat.le_succ b) (applyPause_campBound rs.st id now b hb)
    · intro ns hb
      exact applyPause_campPhones rs.st id now ns hb
  · replace hpb : env.pauseBefore = false := by simpa using hpb
    obtain ⟨oc0, hc0⟩ : ∃ o, cmGet rs.st.activeCampaigns id = o := ⟨_, rfl⟩
    cases oc0 with
    | none =>
      have hstep : stepRecipient (some id) st tl now pn env i rs =
          (rs, some .pausedExit) := by
        simp [stepRecipient, hpb, hc0]
      rw [hstep]
      refine ⟨⟨[], by simp, rfl⟩, ?_, ?_⟩
      · intro b hb
        exact campBound_mono _ _ _ _ (Nat.le_succ b) hb
      · intro ns hb
        exact hb
    | some c0 =>
      by_cases hp0 : c0.isPaused = true
      · have hstep : stepRecipient (some id) st tl now pn env i rs =
            (rs, some .pausedExit) := by
          simp [stepRecipient, hpb, hc0, hp0]
        rw [hstep]
        refine ⟨⟨[], by simp, rfl⟩, ?_, ?_⟩
        · intro b hb
          exact campBound_mono _ _ _ _ (Nat.le_succ b) hb
        · intro ns hb
          exact hb
      · replace hp0 : c0.isPaused = false := by simpa using hp0
        obtain ⟨⟨s2, mErr⟩, hv⟩ : ∃ vres,
            validateConnection (setActive rs.st id (withCur c0 (st + i)))
              env.connOk now = vres := ⟨_, rfl⟩
        have hpau2 : s2.pausedCampaigns = rs.st.pausedCampaigns := by
          have hh := validateConnection_paused (setActive rs.st id (withCur c0 (st + i)))
            env.connOk now
          rw [hv] at hh
          simpa [setActive] using hh
        obtain ⟨es0, hev2, hst0⟩ : ∃ es0, s2.events = rs.st.events ++ es0 ∧
            es0.all isStatusEv = true := by
          obtain ⟨es0, he, ha0⟩ := validateConnection_events
            (setActive rs.st id (withCur c0 (st + i))) env.connOk now
          rw [hv] at he
          exact ⟨es0, by simpa [setActive] using he, ha0⟩
        have hact : s2.activeCampaigns =
            cmSet rs.st.activeCampaigns id (withCur c0 (st + i)) := by
          have hh := validateConnection_active (setActive rs.st id (withCur c0 (st + i)))
            env.connOk now
          rw [hv] at hh
          simpa [setActive] using hh
        have hlook : cmGet s2.activeCampaigns id = some (withCur c0 (st + i)) := by
          rw [hact]
          exact cmGet_cmSet_self _ _ _
        have hpaub : ∀ b, campBound rs.st id b → ∀ c1,
            cmGet s2.pausedCampaigns id = some c1 →
            c1.sentCount + c1.failedCount ≤ b := by
          intro b hb c1 hc1
          rw [hpau2] at hc1
          exact hb.2 c1 hc1
        have hpaup : ∀ ns, campPhones rs.st id ns → ∀ c1,
            cmGet s2.pausedCampaigns id = some c1 → c1.phoneNumbers = ns := by
          intro ns hb c1 hc1
          rw [hpau2] at hc1
          exact hb.2 c1 hc1
        simp only [setActive, withCur, hp0] at hv
        cases mErr with
        | some e =>
          have hstep : stepRecipient (some id) st tl now pn env i rs =
              ({ st := emitEv (recordFailure (some id) s2 now)
                  (.messageSent pn (classifyCatch e).1 (st + i + 1) (tl + st) (some id))
                , results := rs.results ++ [(pn, (classifyCatch e).1)]
                , successCount := rs.successCount
                , failureCount := rs.failureCount + 1 }, none) := by
            simp [stepRecipient, hpb, hc0, hp0, setActive, withCur, hv]
          have hrf : recordFailure (some id) s2 now =
              setActive s2 id (withFail c0 (st + i) now) := by
            simp [recordFailure, hlook, setActive, withFail, withCur]
          rw [hstep, hrf]
          refine ⟨⟨es0 ++ [.messageSent pn (classifyCatch e).1 (st + i + 1) (tl + st)
              (some id)], by simp [emitEv, setActive, hev2], ?_⟩, ?_, ?_⟩
          · simp only [List.all_append, Bool.and_eq_true]
            exact ⟨loopKind_of_status es0 hst0, by simp [loopEventKind]⟩
          · intro b hb
            exact campBound_setActive s2 id (withFail c0 (st + i) now) (b + 1)
              (fun c1 hc1 => le_trans (hpaub b hb c1 hc1) (Nat.le_succ b))
              (by have := hb.1 c0 hc0; simp [withFail]; omega)
          · intro ns hb
            exact campPhones_setActive s2 id (withFail c0 (st + i) now) ns
              (fun c1 hc1 => hpaup ns hb c1 hc1)
              (by have h9 := hb.1 c0 hc0; simpa [withFail] using h9)
        | none =>
          cases hsp : runSendAttempts env.attempts 0 with
          | hung n =>
            have hstep : stepRecipient (some id) st tl now pn env i rs =
                ({ rs with st := s2 }, some .hungExit) := by
              simp [stepRecipient, hpb, hc0, hp0, setActive, withCur, hv, hsp]
            rw [hstep]
            refine ⟨⟨es0, by simpa using hev2, loopKind_of_status es0 hst0⟩, ?_, ?_⟩
            · intro b hb
              refine campBound_mono _ _ _ _ (Nat.le_succ b) ?_
              refine ⟨fun c1 hc1 => ?_, fun c1 hc1 => ?_⟩
              · rw [show ({ rs with st := s2 } : RunState).st.activeCampaigns =
                  s2.activeCampaigns from rfl, hlook] at hc1
                cases hc1
                have := hb.1 c0 hc0
                simpa [withCur] using this
              · rw [show ({ rs with st := s2 } : RunState).st.pausedCampaigns =
                  s2.pausedCampaigns from rfl] at hc1
                exact hpaub b hb c1 hc1
            · intro ns hb
              refine ⟨fun c1 hc1 => ?_, fun c1 hc1 => ?_⟩
              · rw [show ({ rs with st := s2 } : RunState).st.activeCampaigns =
                  s2.activeCampaigns from rfl, hlook] at hc1
                cases hc1
                have h9 := hb.1 c0 hc0
                simpa [withCur] using h9
              · rw [show ({ rs with st := s2 } : RunState).st.pausedCampaigns =
                  s2.pausedCampaigns from rfl] at hc1
                exact hpaup ns hb c1 hc1
          | sentOk n =>
            by_cases hps : env.pauseDuringSend = true
            · have hstep : stepRecipient (some id) st tl now pn env i rs =
                  ({ st := resumeIf (env.resumeDuringDelay && decide (i + 1 < tl))
                      (emitEv (recordSuccess (some id)
                        (applyPause s2 (some id) now) now)
                        (.messageSent pn "sent" (st + i + 1) (tl + st) (some id)))
                      (some id) now
                    , results := rs.results ++ [(pn, "sent")]
                    , successCount := rs.successCount + 1
                    , failureCount := rs.failureCount }, none) := by
                simp [stepRecipient, resumeIf, hpb, hc0, hp0, setActive, withCur, hv,
                  hsp, hps]
              have hpnone : cmGet (applyPause s2 (some id) now).activeCampaigns id =
                  none := applyPause_active_none s2 id now
              have hrsucc : recordSuccess (some id) (applyPause s2 (some id) now) now =
                  applyPause s2 (some id) now := by
                simp [recordSuccess, hpnone]
              rw [hstep, hrsucc]
              have hpev : (applyPause s2 (some id) now).events =
                  rs.st.events ++ es0 := by
                rw [applyPause_events, hev2]
              refine ⟨⟨es0 ++ [.messageSent pn "sent" (st + i + 1) (tl + st) (some id)],
                by simp [emitEv, hpev], ?_⟩, ?_, ?_⟩
              · simp only [List.all_append, Bool.and_eq_true]
                exact ⟨loopKind_of_status es0 hst0, by simp [loopEventKind]⟩
              · intro b hb
                have hcb : campBound s2 id b := by
                  refine ⟨fun c1 hc1 => ?_, fun c1 hc1 => ?_⟩
                  · rw [hlook] at hc1
                    cases hc1
                    have := hb.1 c0 hc0
                    simpa [withCur] using this
                  · exact hpaub b hb c1 hc1
                have h1 := applyPause_campBound s2 id now b hcb
                have h2 : campBound (emitEv (applyPause s2 (some id) now)
                    (.messageSent pn "sent" (st + i + 1) (tl + st) (some id))) id b := h1
                exact campBound_mono _ _ _ _ (Nat.le_succ b)
                  (resumeIf_campBound _ _ id now b h2)
              · intro ns hb
                have hcp : campPhones s2 id ns := by
                  refine ⟨fun c1 hc1 => ?_, fun c1 hc1 => ?_⟩
                  · rw [hlook] at hc1
                    cases hc1
                    have h9 := hb.1 c0 hc0
                    simpa [withCur] using h9
                  · exact hpaup ns hb c1 hc1
                have h1 := applyPause_campPhones s2 id now ns hcp
                have h2 : campPhones (emitEv (applyPause s2 (some id) now)
                    (.messageSent pn "sent" (st + i + 1) (tl + st) (some id))) id ns := h1
                exact resumeIf_campPhones _ _ id now ns h2
            · replace hps : env.pauseDuringSend = false := by simpa using hps
              have hstep : stepRecipient (some id) st tl now pn env i rs =
                  ({ st := resumeIf (env.resumeDuringDelay && decide (i + 1 < tl))
                      (emitEv (recordSuccess (some id) s2 now)
                        (.messageSent pn "sent" (st + i + 1) (tl + st) (some id)))
                      (some id) now
                    , results := rs.results ++ [(pn, "sent")]
                    , successCount := rs.successCount + 1
                    , failureCount := rs.failureCount }, none) := by
                simp [stepRecipient, resumeIf, hpb, hc0, hp0, setActive, withCur, hv,
                  hsp, hps]
              have hrsucc : recordSuccess (some id) s2 now =
                  setActive s2 id (withSent c0 (st + i) now) := by
                simp [recordSuccess, hlook, setActive, withSent, withCur]
              rw [hstep, hrsucc]
              refine ⟨⟨es0 ++ [.messageSent pn "sent" (st + i + 1) (tl + st) (some id)],
                by simp [emitEv, setActive, hev2], ?_⟩, ?_, ?_⟩
              · simp only [List.all_append, Bool.and_eq_true]
                exact ⟨loopKind_of_status es0 hst0, by simp [loopEventKind]⟩
              · intro b hb
                have h1 := campBound_setActive s2 id (withSent c0 (st + i) now) (b + 1)
                  (fun c1 hc1 => le_trans (hpaub b hb c1 hc1) (Nat.le_succ b))
                  (by have := hb.1 c0 hc0; simp [withSent]; omega)
                exact resumeIf_campBound _ _ id now (b + 1) h1
              · intro ns hb
                have h1 := campPhones_setActive s2 id (withSent c0 (st + i) now) ns
                  (fun c1 hc1 => hpaup ns hb c1 hc1)
                  (by have h9 := hb.1 c0 hc0; simpa [withSent] using h9)
                exact resumeIf_campPhones _ _ id now ns h1
          | thrown e n =>
            by_cases hps : env.pauseDuringSend = true
            · have hstep : stepRecipient (some id) st tl now pn env i rs =
                  ({ st := emitEv (recordFailure (some id)
                      (applyPause s2 (some id) now) now)
                      (.messageSent pn (classifyCatch e).1 (st + i + 1) (tl + st)
                        (some id))
                    , results := rs.results ++ [(pn, (classifyCatch e).1)]
                    , successCount := rs.successCount
                    , failureCount := rs.failureCount + 1 }, none) := by
                simp [stepRecipient, hpb, hc0, hp0, setActive, withCur, hv, hsp, hps]
              have hpnone : cmGet (applyPause s2 (some id) now).activeCampaigns id =
                  none := applyPause_active_none s2 id now
              have hrfail : recordFailure (some id) (applyPause s2 (some id) now) now =
                  applyPause s2 (some id) now := by
                simp [recordFailure, hpnone]
              rw [hstep, hrfail]
              have hpev : (applyPause s2 (some id) now).events =
                  rs.st.events ++ es0 := by
                rw [applyPause_events, hev2]
              refine ⟨⟨es0 ++ [.messageSent pn (classifyCatch e).1 (st + i + 1)
                (tl + st) (some id)], by simp [emitEv, hpev], ?_⟩, ?_, ?_⟩
              · simp only [List.all_append, Bool.and_eq_true]
                exact ⟨loopKind_of_status es0 hst0, by simp [loopEventKind]⟩
              · intro b hb
                have hcb : campBound s2 id b := by
                  refine ⟨fun c1 hc1 => ?_, fun c1 hc1 => ?_⟩
                  · rw [hlook] at hc1
                    cases hc1
                    have := hb.1 c0 hc0
                    simpa [withCur] using this
                  · exact hpaub b hb c1 hc1
                have h1 := applyPause_campBound s2 id now b hcb
                exact campBound_mono _ _ _ _ (Nat.le_succ b) h1
              · intro ns hb
                have hcp : campPhones s2 id ns := by
                  refine ⟨fun c1 hc1 => ?_, fun c1 hc1 => ?_⟩
                  · rw [hlook] at hc1
                    cases hc1
                    have h9 := hb.1 c0 hc0
                    simpa [withCur] using h9
                  · exact hpaup ns hb c1 hc1
                exact applyPause_campPhones s2 id now ns hcp
            · replace hps : env.pauseDuringSend = false := by simpa using hps
              have hstep : stepRecipient (some id) st tl now pn env i rs =
                  ({ st := emitEv (recordFailure (some id) s2 now)
                      (.messageSent pn (classifyCatch e).1 (st + i + 1) (tl + st)
                        (some id))
                    , results := rs.results ++ [(pn, (classifyCatch e).1)]
                    , successCount := rs.successCount
                    , failureCount := rs.failureCount + 1 }, none) := by
                simp [stepRecipient, hpb, hc0, hp0, setActive, withCur, hv, hsp, hps]
              have hrf : recordFailure (some id) s2 now =
                  setActive s2 id (withFail c0 (st + i) now) := by
                simp [recordFailure, hlook, setActive, withFail, withCur]
              rw [hstep, hrf]
              refine ⟨⟨es0 ++ [.messageSent pn (classifyCatch e).1 (st + i + 1)
                (tl + st) (some id)], by simp [emitEv, setActive, hev2], ?_⟩, ?_, ?_⟩
              · simp only [List.all_append, Bool.and_eq_true]
                exact ⟨loopKind_of_status es0 hst0, by simp [loopEventKind]⟩
              · intro b hb
                exact campBound_setActive s2 id (withFail c0 (st + i) now) (b + 1)
                  (fun c1 hc1 => le_trans (hpaub b hb c1 hc1) (Nat.le_succ b))
                  (by have := hb.1 c0 hc0; simp [withFail]; omega)
              · intro ns hb
                exact campPhones_setActive s2 id (withFail c0 (st + i) now) ns
                  (fun c1 hc1 => hpaup ns hb c1 hc1)
                  (by have h9 := hb.1 c0 hc0; simpa [withFail] using h9)

/-- Invariants of a whole loop invocation over recipients `nums`, whatever
pause/resume interleaving the environments carry: only progress/status
events are appended, the campaign's counter sum grows by at most the number
of recipients in the list, and the stored recipient list never changes. -/
theorem loopGo_invariants (id : String) (st tl now : Nat) (nums : List String) :
    ∀ (envs : List RecipEnv) (i : Nat) (rs : RunState),
      (∃ es, (loopGo (some id) st tl now nums envs i rs).1.st.events =
          rs.st.events ++ es ∧ es.all loopEventKind = true) ∧
      (∀ b, campBound rs.st id b →
        campBound (loopGo (some id) st tl now nums envs i rs).1.st id
          (b + nums.length)) ∧
      (∀ ns, campPhones rs.st id ns →
        campPhones (loopGo (some id) st tl now nums envs i rs).1.st id ns) := by
  induction nums with
  | nil =>
    intro envs i rs
    refine ⟨⟨[], by simp [loopGo], rfl⟩, ?_, ?_⟩
    · intro b hb
      simpa [loopGo] using hb
    · intro ns hb
      simpa [loopGo] using hb
  | cons pn rest ih =>
    intro envs i rs
    obtain ⟨⟨rs1, mek⟩, hstep⟩ : ∃ p, stepRecipient (some id) st tl now pn
        (envs.headD hangEnv) i rs = p := ⟨_, rfl⟩
    have hA := step_invariants id st tl now pn (envs.headD hangEnv) i rs
    rw [hstep] at hA
    obtain ⟨⟨es1, hes1, hall1⟩, hcb1, hph1⟩ := hA
    cases mek with
    | some ek =>
      have hloop : loopGo (some id) st tl now (pn :: rest) envs i rs = (rs1, ek) := by
        simp only [loopGo]
        rw [hstep]
      rw [hloop]
      refine ⟨⟨es1, hes1, hall1⟩, ?_, ?_⟩
      · intro b hb
        exact campBound_mono _ _ _ _ (by simp only [List.length_cons]; omega)
          (hcb1 b hb)
      · intro ns hb
        exact hph1 ns hb
    | none =>
      have hloop : loopGo (some id) st tl now (pn :: rest) envs i rs =
          loopGo (some id) st tl now rest envs.tail (i + 1) rs1 := by
        simp only [loopGo]
        rw [hstep]
      rw [hloop]
      obtain ⟨⟨es2, hes2, hall2⟩, hcb2, hph2⟩ := ih envs.tail (i + 1) rs1
      refine ⟨⟨es1 ++ es2, ?_, ?_⟩, ?_, ?_⟩
      · rw [hes2]
        show rs1.st.events ++ es2 = rs.st.events ++ (es1 ++ es2)
        rw [show rs1.st.events = rs.st.events ++ es1 from hes1, List.append_assoc]
      · simp [List.all_append, hall1, hall2]
      · intro b hb
        have h2 := hcb2 (b + 1) (hcb1 b hb)
        exact campBound_mono _ _ _ _ (by simp only [List.length_cons]; omega) h2
      · intro ns hb
        exact hph2 ns (hph1 ns hb)

/-- An `okEnv` iteration on an active, unpaused campaign with a ready
client: the recipient is delivered on the first attempt, the campaign's
cursor and sent counter advance, and exactly one progress event is
emitted. -/
theorem step_ok (id : String) (st tl now : Nat) (pn : String) (i : Nat) (rs : RunState)
    (c : Campaign)
    (hc : cmGet rs.st.activeCampaigns id = some c) (hp : c.isPaused = false)
    (hcp : rs.st.clientPresent = true) (hr : rs.st.isClientReady = true)
    (ha : rs.st.isClientAuthenticated = true) :
    stepRecipient (some id) st tl now pn okEnv i rs =
      ({ st := { rs.st with
            activeCampaigns := cmSet rs.st.activeCampaigns id
              { c with currentIndex := st + i, sentCount := c.sentCount + 1,
                       lastActivity := now },
            lastSuccessfulConnection := now, connectionFailureCount := 0,
            events := rs.st.events ++
              [.messageSent pn "sent" (st + i + 1) (tl + st) (some id)] },
         results := rs.results ++ [(pn, "sent")],
         successCount := rs.successCount + 1, failureCount := rs.failureCount }, none) := by
  simp [stepRecipient, okEnv, validateConnection, recordSuccess, emitEv, runSendAttempts,
    hc, hp, hcp, hr, ha, cmGet_cmSet_self, cmSet_cmSet]

/-- Running the loop over a leading block of recipients whose environments
all deliver on the first attempt: the block is processed in order, one
progress event and one sent-counter increment per recipient, after which the
loop continues behind the block. -/
theorem loopGo_okPrefix (id : String) (st tl now : Nat) :
    ∀ (numsA numsB : List String) (envsRest : List RecipEnv) (i : Nat)
      (rs : RunState) (c : Campaign),
      cmGet rs.st.activeCampaigns id = some c → c.isPaused = false →
      rs.st.clientPresent = true → rs.st.isClientReady = true →
      rs.st.isClientAuthenticated = true →
      ∃ rs' c',
        loopGo (some id) st tl now (numsA ++ numsB)
            (List.replicate numsA.length okEnv ++ envsRest) i rs =
          loopGo (some id) st tl now numsB envsRest (i + numsA.length) rs' ∧
        cmGet rs'.st.activeCampaigns id = some c' ∧
        c'.sentCount = c.sentCount + numsA.length ∧
        c'.failedCount = c.failedCount ∧
        c'.phoneNumbers = c.phoneNumbers ∧
        c'.isPaused = false ∧
        rs'.st.pausedCampaigns = rs.st.pausedCampaigns ∧
        rs'.st.clientPresent = true ∧ rs'.st.isClientReady = true ∧
        rs'.st.isClientAuthenticated = true ∧
        rs'.st.runningLoops = rs.st.runningLoops ∧
        rs'.st.events = rs.st.events ++ sentEvents id st tl numsA i ∧
        rs'.results = rs.results ++ numsA.map (fun pn => (pn, "sent")) ∧
        rs'.successCount = rs.successCount + numsA.length ∧
        rs'.failureCount = rs.failureCount := by
  intro numsA
  induction numsA with
  | nil =>
    intro numsB envsRest i rs c hc hp hcp hr ha
    exact ⟨rs, c, by simp, hc, by simp, rfl, rfl, hp, rfl, hcp, hr, ha, rfl,
      by simp [sentEvents], by simp, by simp, rfl⟩
  | cons pn restA ih =>
    intro numsB envsRest i rs c hc hp hcp hr ha
    have hstep := step_ok id st tl now pn i rs c hc hp hcp hr ha
    obtain ⟨rs', c', hloop, hget, hsent, hfail, hphones, hpz, hpaused, hcp', hr', ha',
        hrl, hev, hres, hsucc, hfailc⟩ :=
      ih numsB envsRest (i + 1)
        ({ st := { rs.st with
              activeCampaigns := cmSet rs.st.activeCampaigns id
                { c with currentIndex := st + i, sentCount := c.sentCount + 1,
                         lastActivity := now },
              lastSuccessfulConnection := now, connectionFailureCount := 0,
              events := rs.st.events ++
                [.messageSent pn "sent" (st + i + 1) (tl + st) (some id)] },
           results := rs.results ++ [(pn, "sent")],
           successCount := rs.successCount + 1, failureCount := rs.failureCount })
        { c with currentIndex := st + i, sentCount := c.sentCount + 1,
                 lastActivity := now }
        (by simp [cmGet_cmSet_self]) (by simp [hp]) (by simpa using hcp)
        (by simpa using hr) (by simpa using ha)
    refine ⟨rs', c', ?_, hget, ?_, ?_, ?_, hpz, ?_, hcp', hr', ha', ?_, ?_, ?_, ?_, ?_⟩
    · rw [List.length_cons, List.replicate_succ, List.cons_append, List.cons_append]
      rw [loopGo]
      simp only [List.headD_cons, hstep, List.tail_cons]
      rw [hloop]
      have hidx : i + 1 + restA.length = i + (restA.length + 1) := by omega
      rw [hidx]
    · have h2 : c'.sentCount = c.sentCount + 1 + restA.length := hsent
      show c'.sentCount = c.sentCount + (restA.length + 1)
      omega
    · exact hfail
    · exact hphones
    · exact hpaused
    · exact hrl
    · have hev' : rs'.st.events =
          (rs.st.events ++ [.messageSent pn "sent" (st + i + 1) (tl + st) (some id)]) ++
            sentEvents id st tl restA (i + 1) := hev
      rw [hev', List.append_assoc]
      simp [sentEvents]
    · have hres' : rs'.results =
          (rs.results ++ [(pn, "sent")]) ++ restA.map (fun pn => (pn, "sent")) := hres
      rw [hres', List.append_assoc]
      simp
    · have h1 : rs'.successCount = rs.successCount + 1 + restA.length := hsucc
      show rs'.successCount = rs.successCount + (restA.length + 1)
      omega
    · exact hfailc

theorem cmDel_cmSet (m : List (String × Campaign)) (k : String) (v : Campaign) :
    cmDel (cmSet m k v) k = cmDel m k := by
  induction m with
  | nil => simp [cmSet, cmDel]
  | cons p rest ih =>
    rcases p with ⟨k₀, v₀⟩
    by_cases h0 : k₀ = k
    · subst h0; simp [cmSet, cmDel]
    · have ih' := ih
      simp only [cmDel] at ih'
      simp [cmSet, cmDel, h0, ih']

theorem applyPause_inactive (s : ServerState) (id : String) (now : Nat)
    (h : cmGet s.activeCampaigns id = none) : applyPause s (some id) now = s := by
  unfold applyPause pauseEndpoint
  simp [h]

/-- A pause request serviced while the send attempt is in flight: the
attempt completes (its success event is still emitted), but the campaign has
already moved to the paused pool, so the sent counter is not updated and the
next iteration's pause check will stop the loop. -/
theorem step_pauseMidSend (id : String) (st tl now : Nat) (pn : String) (i : Nat)
    (rs : RunState) (c : Campaign)
    (hc : cmGet rs.st.activeCampaigns id = some c) (hp : c.isPaused = false)
    (hcp : rs.st.clientPresent = true) (hr : rs.st.isClientReady = true)
    (ha : rs.st.isClientAuthenticated = true) :
    stepRecipient (some id) st tl now pn pauseMidSendEnv i rs =
      (pauseStepRun id st tl now pn i rs c, none) := by
  simp [stepRecipient, pauseStepRun, pauseMidSendEnv, validateConnection, recordSuccess,
    applyPause, pauseEndpoint, emitEv, runSendAttempts, hc, hp, hcp, hr, ha,
    cmGet_cmSet_self, cmDel_cmSet, cmGet_cmDel_self]

/-- With the campaign absent from the active pool, the loop stops at the
very next pause check without touching the state (and an empty recipient
list just finishes). -/
theorem loopGo_inactive (id : String) (st tl now : Nat) (envs : List RecipEnv) (i : Nat)
    (rs : RunState) (h : cmGet rs.st.activeCampaigns id = none) :
    ∀ nums, loopGo (some id) st tl now nums envs i rs =
      (rs, if nums.isEmpty then .finished else .pausedExit) := by
  intro nums
  cases nums with
  | nil => simp [loopGo]
  | cons pn rest =>
    have happ : applyPause rs.st (some id) now = rs.st := applyPause_inactive rs.st id now h
    simp [loopGo, stepRecipient, happ, h]

theorem filter_status_map (nums : List String) (st0 : String)
    (h : ("sent" == st0) = false) :
    (nums.map fun pn => (pn, "sent")).filter (fun p => p.2 == st0) = [] := by
  induction nums with
  | nil => simp
  | cons pn rest ih => simpa [h] using ih

/-- Unfolding of `sendMessagesSequentially` when the loop finishes the list
with the campaign still active: the completion block runs. -/
theorem sendSeq_finished (s1 : ServerState) (nums : List String) (id : String)
    (envs : List RecipEnv) (now : Nat) (rs' : RunState) (c' : Campaign)
    (hloop : loopGo (some id) 0 nums.length now nums envs 0
        ⟨{ s1 with runningLoops := s1.runningLoops + 1 }, [], 0, 0⟩ = (rs', .finished))
    (hget : cmGet rs'.st.activeCampaigns id = some c') :
    sendMessagesSequentially s1 nums (some id) 0 envs now =
      emitEv { rs'.st with
          runningLoops := rs'.st.runningLoops - 1,
          activeCampaigns := cmDel rs'.st.activeCampaigns id }
        (.bulkSendComplete c'.phoneNumbers.length c'.sentCount c'.failedCount
          (rs'.results.filter (fun p => p.2 == "unavailable")).length
          (rs'.results.filter (fun p => p.2 == "connection")).length
          (rs'.results.filter (fun p => p.2 == "failed")).length (some id)) := by
  unfold sendMessagesSequentially
  simp only [hloop]
  simp [hget, emitEv]

/-- Unfolding of `sendMessagesSequentially` when the loop returned at a
pause check: no completion block. -/
theorem sendSeq_paused (s1 : ServerState) (nums : List String) (id : String)
    (envs : List RecipEnv) (now : Nat) (rs' : RunState)
    (hloop : loopGo (some id) 0 nums.length now nums envs 0
        ⟨{ s1 with runningLoops := s1.runningLoops + 1 }, [], 0, 0⟩ =
      (rs', .pausedExit)) :
    sendMessagesSequentially s1 nums (some id) 0 envs now =
      { rs'.st with runningLoops := rs'.st.runningLoops - 1 } := by
  unfold sendMessagesSequentially
  simp only [hloop]

/-- Unfolding of `sendMessagesSequentially` when an attempt inside the loop
never returned: the invocation is blocked and keeps its `runningLoops`
slot. -/
theorem sendSeq_hung (s1 : ServerState) (nums : List String) (id : String)
    (envs : List RecipEnv) (now : Nat) (rs' : RunState)
    (hloop : loopGo (some id) 0 nums.length now nums envs 0
        ⟨{ s1 with runningLoops := s1.runningLoops + 1 }, [], 0, 0⟩ =
      (rs', .hungExit)) :
    sendMessagesSequentially s1 nums (some id) 0 envs now = rs'.st := by
  unfold sendMessagesSequentially
  simp only [hloop]

/-- Unfolding of `sendMessagesSequentially` when the loop finishes the list
but the campaign is no longer in the active pool. -/
theorem sendSeq_finished_inactive (s1 : ServerState) (nums : List String) (id : String)
    (envs : List RecipEnv) (now : Nat) (rs' : RunState)
    (hloop : loopGo (some id) 0 nums.length now nums envs 0
        ⟨{ s1 with runningLoops := s1.runningLoops + 1 }, [], 0, 0⟩ = (rs', .finished))
    (hget : cmGet rs'.st.activeCampaigns id = none) :
    sendMessagesSequentially s1 nums (some id) 0 envs now =
      { rs'.st with runningLoops := rs'.st.runningLoops - 1 } := by
  unfold sendMessagesSequentially
  simp only [hloop]
  simp [hget]

/-- Unfolding of `continueCampaign` down to its loop invocation when the
campaign is active, unpaused and the client ready. -/
theorem continueCampaign_run (s : ServerState) (id : String) (c : Campaign)
    (envs : List RecipEnv) (now : Nat)
    (hc : cmGet s.activeCampaigns id = some c) (hp : c.isPaused = false)
    (hr : s.isClientReady = true) (ha : s.isClientAuthenticated = true) :
    continueCampaign s id envs now =
      sendMessagesSequentially (emitEv s (.bulkSendStart c.phoneNumbers.length id))
        c.phoneNumbers (some id) 0 envs now := by
  unfold continueCampaign
  rw [hc]
  simp [hp, hr, ha]

/-- A re-invocation of the delivery loop on an active campaign, with every
send delivering on the first attempt: the full recipient list is processed
again from index 0, the sent counter grows by the full list length on top of
whatever was already counted, and the campaign completes and is removed. -/
theorem continueCampaign_okRun (s : ServerState) (id : String) (c : Campaign) (now : Nat)
    (hc : cmGet s.activeCampaigns id = some c) (hp : c.isPaused = false)
    (hcp : s.clientPresent = true) (hr : s.isClientReady = true)
    (ha : s.isClientAuthenticated = true) :
    cmGet (continueCampaign s id (List.replicate c.phoneNumbers.length okEnv)
      now).activeCampaigns id = none ∧
    (continueCampaign s id (List.replicate c.phoneNumbers.length okEnv)
      now).pausedCampaigns = s.pausedCampaigns ∧
    (continueCampaign s id (List.replicate c.phoneNumbers.length okEnv)
      now).runningLoops = s.runningLoops ∧
    (continueCampaign s id (List.replicate c.phoneNumbers.length okEnv)
      now).events = s.events ++
      Event.bulkSendStart c.phoneNumbers.length id ::
        (sentEvents id 0 c.phoneNumbers.length c.phoneNumbers 0 ++
          [Event.bulkSendComplete c.phoneNumbers.length
            (c.sentCount + c.phoneNumbers.length) c.failedCount 0 0 0 (some id)]) := by
  obtain ⟨rs', c', hloop, hget, hsent, hfail, hphones, hpz, hpaused, hcp', hr', ha',
      hrl, hev, hres, hsucc, hfailc⟩ :=
    loopGo_okPrefix id 0 c.phoneNumbers.length now c.phoneNumbers [] [] 0
      ⟨{ emitEv s (.bulkSendStart c.phoneNumbers.length id) with
          runningLoops :=
            (emitEv s (.bulkSendStart c.phoneNumbers.length id)).runningLoops + 1 },
        [], 0, 0⟩ c
      (by simpa [emitEv] using hc) hp (by simpa [emitEv] using hcp)
      (by simpa [emitEv] using hr) (by simpa [emitEv] using ha)
  rw [List.append_nil, List.append_nil] at hloop
  simp only [loopGo] at hloop
  have hwrap := sendSeq_finished (emitEv s (.bulkSendStart c.phoneNumbers.length id))
    c.phoneNumbers id (List.replicate c.phoneNumbers.length okEnv) now rs' c' hloop hget
  rw [continueCampaign_run s id c (List.replicate c.phoneNumbers.length okEnv) now
    hc hp hr ha, hwrap]
  have hres' : rs'.results = c.phoneNumbers.map (fun pn => (pn, "sent")) := hres
  have hsent' : c'.sentCount = c.sentCount + c.phoneNumbers.length := hsent
  have hfail' : c'.failedCount = c.failedCount := hfail
  have hrl' : rs'.st.runningLoops = s.runningLoops + 1 := hrl
  have hpaused' : rs'.st.pausedCampaigns = s.pausedCampaigns := hpaused
  have hev' : rs'.st.events =
      (s.events ++ [Event.bulkSendStart c.phoneNumbers.length id]) ++
        sentEvents id 0 c.phoneNumbers.length c.phoneNumbers 0 := hev
  refine ⟨by simp [emitEv, cmGet_cmDel_self], by simp [emitEv, hpaused'],
    by simp [emitEv]; omega, ?_⟩
  rw [hres', filter_status_map _ _ (by decide), filter_status_map _ _ (by decide),
    filter_status_map _ _ (by decide)]
  simp [emitEv, hev', hsent', hfail', hphones]

/-! ## C6 - recipient validator -/

/-- C6: the validator maps `"9876543210"` (any row) to
`"919876543210@c.us"`, maps `"+919876543210"` (any row) to the same
canonical form, rejects `"abc"` and `"12345"` at any row, and rejects the
first-row header value `"Phone Number"`. -/
theorem C6_validator_cases :
    (∀ r, validateAndFormatPhoneNumber "9876543210" r = some "919876543210@c.us") ∧
    (∀ r, validateAndFormatPhoneNumber "+919876543210" r = some "919876543210@c.us") ∧
    (∀ r, validateAndFormatPhoneNumber "abc" r = none) ∧
    (∀ r, validateAndFormatPhoneNumber "12345" r = none) ∧
    validateAndFormatPhoneNumber "Phone Number" 0 = none := by
  refine ⟨fun r => ?_, fun r => ?_, fun r => ?_, fun r => ?_, by decide⟩ <;>
    by_cases hr : r = 0 <;> simp [validateAndFormatPhoneNumber, hr] <;> decide

/-! ## C5 - retry policy -/

/-- Attempts started by the retry loop never exceed the ceiling. -/
theorem runSendAttempts_le (envs : List AttemptResult) :
    ∀ n, n < 3 → attemptsOf (runSendAttempts envs n) ≤ 3 := by
  induction envs with
  | nil => intro n hn; simpa [runSendAttempts, attemptsOf] using Nat.le_of_lt hn
  | cons a rest ih =>
    intro n hn
    cases a with
    | success => simp [runSendAttempts, attemptsOf]; omega
    | hang => simp [runSendAttempts, attemptsOf]; omega
    | jsError e =>
      by_cases hu : isNumberUnavailableError e = true
      · simp [runSendAttempts, attemptsOf, hu]; omega
      · by_cases hlt : n + 1 < maxAttempts
        · simpa [runSendAttempts, attemptsOf, hu, hlt] using ih (n + 1) hlt
        · simp [runSendAttempts, attemptsOf, hu, hlt]; omega

/-- C5 (corrected): the claim restricted retries to connection/transient
errors, but the loop retries every error that is not classified
recipient-unavailable - the generic error `"boom"` is neither unavailable-
nor connection/transient-classified, yet a second attempt is made. -/
theorem C5_counterexample : ¬ ClaimC5 := fun h =>
  absurd (h.2.1 "boom" [.success] (by decide) (by decide)) (by decide)

/-- C5 (amended): a recipient-unavailable first failure short-circuits the
retry loop after exactly one attempt (the wrapped error is re-thrown); no
recipient ever sees more than 3 attempts; and every first-attempt error
that is not unavailable-classified is retried - whatever its category. -/
theorem C5_amended_retry_policy :
    (∀ e rest, isNumberUnavailableError e = true →
      runSendAttempts (.jsError e :: rest) 0 =
        .thrown ("Number not available on WhatsApp: " ++ e) 1) ∧
    (∀ envs, attemptsOf (runSendAttempts envs 0) ≤ 3) ∧
    (∀ e rest, isNumberUnavailableError e = false →
      runSendAttempts (.jsError e :: rest) 0 = runSendAttempts rest 1) := by
  refine ⟨fun e rest h => ?_, fun envs => runSendAttempts_le envs 0 (by decide),
    fun e rest h => ?_⟩
  · simp [runSendAttempts, h]
  · simp [runSendAttempts, h, maxAttempts]

theorem C5_amended_retry_policy_witness :
    runSendAttempts [.jsError "Timeout 30000ms exceeded"] 0 =
      .thrown ("Number not available on WhatsApp: " ++ "Timeout 30000ms exceeded") 1 ∧
    attemptsOf (runSendAttempts [.jsError "boom", .jsError "boom", .jsError "boom"] 0) ≤ 3 ∧
    runSendAttempts [.jsError "boom", .success] 0 = runSendAttempts [.success] 1 :=
  ⟨C5_amended_retry_policy.1 "Timeout 30000ms exceeded" [] (by decide),
   C5_amended_retry_policy.2.1 [.jsError "boom", .jsError "boom", .jsError "boom"],
   C5_amended_retry_policy.2.2 "boom" [.success] (by decide)⟩

/-! ## C3 - resume endpoint crash after the pool move -/

/-- C3: for every resume request on a campaign in the paused pool, the
handler clears the pause flag and moves the campaign into the active pool,
then crashes on the undefined `getPendingPhoneNumbers` and answers HTTP 500;
the move is not rolled back (the paused pool has changed), and the delivery
loop is never re-invoked (no loop started, no event emitted). -/
theorem C3_resume_crash_after_move : ∀ s id c now,
    cmGet s.pausedCampaigns id = some c →
    (resumeEndpoint s (some id) now).2 =
      .serverError "Failed to resume campaign: getPendingPhoneNumbers is not defined" ∧
    cmGet (resumeEndpoint s (some id) now).1.activeCampaigns id =
      some { c with isPaused := false, resumedAt := some now, lastActivity := now } ∧
    cmGet (resumeEndpoint s (some id) now).1.pausedCampaigns id = none ∧
    (resumeEndpoint s (some id) now).1.runningLoops = s.runningLoops ∧
    (resumeEndpoint s (some id) now).1.events = s.events ∧
    (resumeEndpoint s (some id) now).1.pausedCampaigns ≠ s.pausedCampaigns := by
  intro s id c now h
  refine ⟨by simp [resumeEndpoint, h], by simp [resumeEndpoint, h, cmGet_cmSet_self],
    by simp [resumeEndpoint, h, cmGet_cmDel_self], by simp [resumeEndpoint, h],
    by simp [resumeEndpoint, h], ?_⟩
  intro heq
  have h1 : cmGet (resumeEndpoint s (some id) now).1.pausedCampaigns id = none := by
    simp [resumeEndpoint, h, cmGet_cmDel_self]
  rw [heq, h] at h1
  exact Option.noConfusion h1

theorem C3_resume_crash_after_move_witness :
    (resumeEndpoint c3WitState (some "w3") 7000).2 =
      .serverError "Failed to resume campaign: getPendingPhoneNumbers is not defined" ∧
    cmGet (resumeEndpoint c3WitState (some "w3") 7000).1.activeCampaigns "w3" =
      some { c3WitCamp with isPaused := false, resumedAt := some 7000,
                            lastActivity := 7000 } ∧
    cmGet (resumeEndpoint c3WitState (some "w3") 7000).1.pausedCampaigns "w3" = none ∧
    (resumeEndpoint c3WitState (some "w3") 7000).1.runningLoops = c3WitState.runningLoops ∧
    (resumeEndpoint c3WitState (some "w3") 7000).1.events = c3WitState.events ∧
    (resumeEndpoint c3WitState (some "w3") 7000).1.pausedCampaigns ≠
      c3WitState.pausedCampaigns :=
  C3_resume_crash_after_move c3WitState "w3" c3WitCamp 7000 (by decide)

/-! ## C10 - forced reconnection leaves campaign stores intact -/

/-- C10: when the consecutive-failure counter reaches the maximum of 3, the
failing keep-alive tick forces reconnection: readiness flags reset, client
destroyed, failure counter cleared - and both campaign stores (hence every
stored campaign's recipients, counters, cursor and pause flag) are exactly
as before. -/
theorem C10_forceReconnection_frame : ∀ s now,
    s.clientPresent = true → s.isClientReady = true → s.isClientAuthenticated = true →
    2 ≤ s.connectionFailureCount →
    (keepAliveCheck s now false).activeCampaigns = s.activeCampaigns ∧
    (keepAliveCheck s now false).pausedCampaigns = s.pausedCampaigns ∧
    (keepAliveCheck s now false).isClientReady = false ∧
    (keepAliveCheck s now false).isClientAuthenticated = false ∧
    (keepAliveCheck s now false).clientPresent = false ∧
    (keepAliveCheck s now false).connectionFailureCount = 0 := by
  intro s now hcp hr ha hcnt
  have h3 : 3 ≤ s.connectionFailureCount + 1 := by omega
  simp [keepAliveCheck, hcp, hr, ha, h3, forceReconnection, emitEv]

theorem C10_forceReconnection_frame_witness :
    (keepAliveCheck c10WitState 9000 false).activeCampaigns =
      c10WitState.activeCampaigns ∧
    (keepAliveCheck c10WitState 9000 false).pausedCampaigns =
      c10WitState.pausedCampaigns ∧
    (keepAliveCheck c10WitState 9000 false).isClientReady = false ∧
    (keepAliveCheck c10WitState 9000 false).isClientAuthenticated = false ∧
    (keepAliveCheck c10WitState 9000 false).clientPresent = false ∧
    (keepAliveCheck c10WitState 9000 false).connectionFailureCount = 0 :=
  C10_forceReconnection_frame c10WitState 9000 (by decide) (by decide) (by decide)
    (by decide)

/-! ## C8 - stuck-campaign sweeps restart on every tick -/

/-- C8 (corrected): the claim promised exactly one supervisory restart per
stalled campaign, but two consecutive monitor sweeps over the same stale
campaign each schedule a restart. -/
theorem C8_counterexample : ¬ ClaimC8 := fun h =>
  h c8State "c8" 300001 330001 (by decide) (by decide)

/-- C8 (amended): every `checkStuckCampaigns` sweep that finds an active,
unpaused campaign past the 5-minute staleness threshold schedules a
supervisory restart for it, and the sweep itself leaves the campaign pools
unchanged - so the restarts repeat on every sweep while the campaign stays
stale, one per 30-second tick. -/
theorem mem_staleIds (m : List (String × Campaign)) (id : String) (c : Campaign)
    (p : String × Campaign → Bool) (hc : cmGet m id = some c) (hp : p (id, c) = true) :
    id ∈ (m.filter p).map Prod.fst := by
  induction m with
  | nil => simp [cmGet] at hc
  | cons q rest ih =>
    rcases q with ⟨k₀, v₀⟩
    by_cases h0 : k₀ = id
    · subst h0
      have hv : v₀ = c := by simpa [cmGet] using hc
      subst hv
      simp [List.filter_cons, hp]
    · have hc' : cmGet rest id = some c := by simpa [cmGet, h0] using hc
      by_cases hkeep : p (k₀, v₀) = true
      · rw [List.filter_cons_of_pos hkeep, List.map_cons]
        exact List.Mem.tail _ (ih hc')
      · rw [List.filter_cons_of_neg hkeep]
        exact ih hc'

/-- C8 (amended): every health-check sweep that finds an active, unpaused
campaign past the stale threshold schedules a supervisory restart for it -
one restart attempt per sweep, with the campaign stores untouched by the
sweep itself - so a campaign that stays stale is restarted again by each
later sweep rather than exactly once. -/
theorem C8_amended_restart_every_sweep : ∀ s id c now,
    cmGet s.activeCampaigns id = some c → c.isPaused = false →
    stuckThreshold < now - c.lastActivity →
    id ∈ (checkStuckCampaigns s now).2 ∧
    (checkStuckCampaigns s now).1.activeCampaigns = s.activeCampaigns ∧
    (checkStuckCampaigns s now).1.pausedCampaigns = s.pausedCampaigns := by
  intro s id c now hc hp hstale
  refine ⟨?_, by simp [checkStuckCampaigns], by simp [checkStuckCampaigns]⟩
  have hpred : (!c.isPaused && decide (stuckThreshold < now - c.lastActivity)) = true := by
    simp [hp, hstale]
  simpa [checkStuckCampaigns] using
    mem_staleIds s.activeCampaigns id c
      (fun q => !q.2.isPaused && decide (stuckThreshold < now - q.2.lastActivity)) hc hpred

theorem C8_amended_restart_every_sweep_witness :
    "c8" ∈ (checkStuckCampaigns c8State 300001).2 ∧
    (checkStuckCampaigns c8State 300001).1.activeCampaigns = c8State.activeCampaigns ∧
    (checkStuckCampaigns c8State 300001).1.pausedCampaigns = c8State.pausedCampaigns :=
  C8_amended_restart_every_sweep c8State "c8" (freshCampaign "c8" ["a@c.us"] "m" "30-60" 0)
    300001 (by decide) (by decide) (by decide)

/-! ## Counterexamples to C1, C2, C4 -/

/-- C1 (corrected): the counter invariant fails on a reachable state - after
a wedge and one supervisory restart, the stored campaign of `c1Trace` has
`sentCount + failedCount = 4` over 3 recipients. -/
theorem C1_counterexample : ¬ ClaimC1 := fun h =>
  absurd ((h (applyActions initState c1Trace) ⟨c1Trace, rfl⟩).1) (by decide)

/-- C2 (corrected): resuming does not continue at the saved position - in
`c2Trace` the campaign paused after recipient 0 is next re-attempted at
recipient 0, so its attempt sequence `[a, a]` is not a prefix of `[a, b]`. -/
theorem C2_counterexample : ¬ ClaimC2 := fun h =>
  absurd (h (applyActions initState c2Trace) ⟨c2Trace, rfl⟩) (by decide)

/-- C4 (corrected): two delivery loops can be executing at the same instant
- submission during an executing campaign starts a second loop instead of
queueing. -/
theorem C4_counterexample : ¬ ClaimC4 := fun h =>
  absurd (h (applyActions initState c4Trace) ⟨c4Trace, rfl⟩) (by decide)

/-! ## Amended theorems for C2 and C4 -/

/-- C2 (amended): re-invoking the delivery loop on a campaign whose counters
already record previously processed recipients does not continue at the
saved cursor - it starts over at recipient index 0: the emitted progress
events re-cover the whole recipient list from its head, and the completion
summary reports `sentCount` grown by the full list length on top of the
already-recorded count.  (The resume endpoint itself never reaches this
re-invocation - see C3 - so the re-invocation happens through the
supervisory restart or the manual restart endpoint.) -/
theorem C2_amended_restart_from_zero : ∀ s id c now,
    cmGet s.activeCampaigns id = some c → c.isPaused = false →
    s.clientPresent = true → s.isClientReady = true → s.isClientAuthenticated = true →
    cmGet (continueCampaign s id (List.replicate c.phoneNumbers.length okEnv)
      now).activeCampaigns id = none ∧
    (continueCampaign s id (List.replicate c.phoneNumbers.length okEnv)
      now).events = s.events ++
      Event.bulkSendStart c.phoneNumbers.length id ::
        (sentEvents id 0 c.phoneNumbers.length c.phoneNumbers 0 ++
          [Event.bulkSendComplete c.phoneNumbers.length
            (c.sentCount + c.phoneNumbers.length) c.failedCount 0 0 0 (some id)]) := by
  intro s id c now hc hp hcp hr ha
  obtain ⟨h1, _, _, h4⟩ := continueCampaign_okRun s id c now hc hp hcp hr ha
  exact ⟨h1, h4⟩

theorem C2_amended_restart_from_zero_witness :
    cmGet (continueCampaign c2WitState "w2"
      (List.replicate c2WitCamp.phoneNumbers.length okEnv) 8000).activeCampaigns "w2" =
      none ∧
    (continueCampaign c2WitState "w2"
      (List.replicate c2WitCamp.phoneNumbers.length okEnv) 8000).events =
      c2WitState.events ++
      Event.bulkSendStart c2WitCamp.phoneNumbers.length "w2" ::
        (sentEvents "w2" 0 c2WitCamp.phoneNumbers.length c2WitCamp.phoneNumbers 0 ++
          [Event.bulkSendComplete c2WitCamp.phoneNumbers.length
            (c2WitCamp.sentCount + c2WitCamp.phoneNumbers.length) c2WitCamp.failedCount
            0 0 0 (some "w2")]) :=
  C2_amended_restart_from_zero c2WitState "w2" c2WitCamp 8000 (by decide) (by decide)
    (by decide) (by decide) (by decide)

/-- C4 (amended): the server keeps no queue - submitting a campaign while
`runningLoops ≥ 1` delivery loops are already executing still stores it and
starts its own delivery loop two seconds later, which runs to completion
regardless of the loops already in flight. -/
theorem C4_amended_no_queue : ∀ s id numbers message dr now1 now2,
    s.clientPresent = true → s.isClientReady = true → s.isClientAuthenticated = true →
    1 ≤ s.runningLoops →
    cmGet (applyActions s [.submit id numbers message dr now1,
      .startLoop id (List.replicate numbers.length okEnv) now2]).activeCampaigns id =
      none ∧
    (applyActions s [.submit id numbers message dr now1,
      .startLoop id (List.replicate numbers.length okEnv) now2]).runningLoops =
      s.runningLoops ∧
    (applyActions s [.submit id numbers message dr now1,
      .startLoop id (List.replicate numbers.length okEnv) now2]).events =
      s.events ++ Event.bulkSendStart numbers.length id ::
        Event.bulkSendStart numbers.length id ::
          (sentEvents id 0 numbers.length numbers 0 ++
            [Event.bulkSendComplete numbers.length numbers.length 0 0 0 0 (some id)]) := by
  intro s id numbers message dr now1 now2 hcp hr ha _hbusy
  have hsub : applyActions s [.submit id numbers message dr now1,
      .startLoop id (List.replicate numbers.length okEnv) now2] =
      continueCampaign (applyAction s (.submit id numbers message dr now1)) id
        (List.replicate numbers.length okEnv) now2 := rfl
  set sB := applyAction s (.submit id numbers message dr now1) with hsB
  have hactive : sB.activeCampaigns =
      cmSet s.activeCampaigns id (freshCampaign id numbers message dr now1) := by
    rw [hsB]; simp [applyAction, emitEv]
  have hc1 : cmGet sB.activeCampaigns id =
      some (freshCampaign id numbers message dr now1) := by
    rw [hactive]; exact cmGet_cmSet_self _ _ _
  have hev0 : sB.events = s.events ++ [Event.bulkSendStart numbers.length id] := by
    rw [hsB]; simp [applyAction, emitEv]
  have hrl0 : sB.runningLoops = s.runningLoops := by
    rw [hsB]; simp [applyAction, emitEv]
  have hcp0 : sB.clientPresent = true := by
    rw [hsB]; simp [applyAction, emitEv, hcp]
  have hr0 : sB.isClientReady = true := by
    rw [hsB]; simp [applyAction, emitEv, hr]
  have ha0 : sB.isClientAuthenticated = true := by
    rw [hsB]; simp [applyAction, emitEv, ha]
  obtain ⟨h1, _, h3, h4⟩ := continueCampaign_okRun sB id
    (freshCampaign id numbers message dr now1) now2 hc1 (by simp [freshCampaign])
    hcp0 hr0 ha0
  rw [hsub]
  refine ⟨h1, by rw [← hrl0]; exact h3, ?_⟩
  have h4' : (continueCampaign sB id (List.replicate numbers.length okEnv)
      now2).events =
      sB.events ++ Event.bulkSendStart numbers.length id ::
        (sentEvents id 0 numbers.length numbers 0 ++
          [Event.bulkSendComplete numbers.length (0 + numbers.length) 0 0 0 0
            (some id)]) := h4
  rw [h4', hev0]
  simp

/-- C9: a pause request serviced while a send attempt is in flight is
honored only at the next recipient-iteration boundary: the in-flight
attempt runs to completion (its progress event is still emitted, as the last
event of the run), no subsequent recipient is attempted, the campaign sits
in the paused pool with its cursor at the interrupted position, and the loop
invocation has returned. -/
theorem C9_pause_next_boundary : ∀ s id c now (numsA : List String) (pj : String)
    (numsB : List String) (extra : List RecipEnv),
    cmGet s.activeCampaigns id = some c → c.isPaused = false →
    s.clientPresent = true → s.isClientReady = true → s.isClientAuthenticated = true →
    c.phoneNumbers = numsA ++ pj :: numsB →
    cmGet (continueCampaign s id
      (List.replicate numsA.length okEnv ++ pauseMidSendEnv :: extra)
      now).activeCampaigns id = none ∧
    (∃ c'', cmGet (continueCampaign s id
        (List.replicate numsA.length okEnv ++ pauseMidSendEnv :: extra)
        now).pausedCampaigns id = some c'' ∧ c''.isPaused = true ∧
      c''.sentCount = c.sentCount + numsA.length ∧
      c''.failedCount = c.failedCount) ∧
    (continueCampaign s id
      (List.replicate numsA.length okEnv ++ pauseMidSendEnv :: extra)
      now).runningLoops = s.runningLoops ∧
    (continueCampaign s id
      (List.replicate numsA.length okEnv ++ pauseMidSendEnv :: extra)
      now).events = s.events ++
      Event.bulkSendStart c.phoneNumbers.length id ::
        (sentEvents id 0 c.phoneNumbers.length numsA 0 ++
          [Event.messageSent pj "sent" (numsA.length + 1) c.phoneNumbers.length
            (some id)]) := by
  intro s id c now numsA pj numsB extra hc hp hcp hr ha hsplit
  rw [hsplit]
  have hcont := continueCampaign_run s id c
    (List.replicate numsA.length okEnv ++ pauseMidSendEnv :: extra) now hc hp hr ha
  rw [hsplit] at hcont
  obtain ⟨rs', c', hloop, hget, hsent, hfail, hphones, hpz, hpaused, hcp', hr', ha',
      hrl, hev, hres, hsucc, hfailc⟩ :=
    loopGo_okPrefix id 0 (numsA ++ pj :: numsB).length now numsA (pj :: numsB)
      (pauseMidSendEnv :: extra) 0
      ⟨{ emitEv s (.bulkSendStart (numsA ++ pj :: numsB).length id) with
          runningLoops :=
            (emitEv s (.bulkSendStart (numsA ++ pj :: numsB).length id)).runningLoops + 1 },
        [], 0, 0⟩ c
      (by simpa [emitEv] using hc) hp (by simpa [emitEv] using hcp)
      (by simpa [emitEv] using hr) (by simpa [emitEv] using ha)
  have hstep := step_pauseMidSend id 0 (numsA ++ pj :: numsB).length now pj
    (0 + numsA.length) rs' c' hget hpz hcp' hr' ha'
  have hfull : loopGo (some id) 0 (numsA ++ pj :: numsB).length now
      (numsA ++ pj :: numsB)
      (List.replicate numsA.length okEnv ++ pauseMidSendEnv :: extra) 0
      ⟨{ emitEv s (.bulkSendStart (numsA ++ pj :: numsB).length id) with
          runningLoops :=
            (emitEv s (.bulkSendStart (numsA ++ pj :: numsB).length id)).runningLoops + 1 },
        [], 0, 0⟩ =
      (pauseStepRun id 0 (numsA ++ pj :: numsB).length now pj (0 + numsA.length) rs' c',
       if numsB.isEmpty then ExitKind.finished else ExitKind.pausedExit) := by
    rw [hloop, loopGo]
    simp only [List.headD_cons, List.tail_cons, hstep]
    exact loopGo_inactive id 0 (numsA ++ pj :: numsB).length now extra
      (0 + numsA.length + 1)
      (pauseStepRun id 0 (numsA ++ pj :: numsB).length now pj (0 + numsA.length) rs' c')
      (by simp [pauseStepRun, cmGet_cmDel_self]) numsB
  have hsend : sendMessagesSequentially
      (emitEv s (.bulkSendStart (numsA ++ pj :: numsB).length id))
      (numsA ++ pj :: numsB) (some id) 0
      (List.replicate numsA.length okEnv ++ pauseMidSendEnv :: extra) now =
      { (pauseStepRun id 0 (numsA ++ pj :: numsB).length now pj (0 + numsA.length)
          rs' c').st with
        runningLoops := (pauseStepRun id 0 (numsA ++ pj :: numsB).length now pj
          (0 + numsA.length) rs' c').st.runningLoops - 1 } := by
    cases hnb : numsB.isEmpty with
    | true =>
      exact sendSeq_finished_inactive _ _ id _ now _ (by simpa [hnb] using hfull)
        (by simp [pauseStepRun, cmGet_cmDel_self])
    | false =>
      exact sendSeq_paused _ _ id _ now _ (by simpa [hnb] using hfull)
  rw [hcont, hsend]
  have hrl' : rs'.st.runningLoops = s.runningLoops + 1 := hrl
  have hev' : rs'.st.events =
      (s.events ++ [Event.bulkSendStart (numsA ++ pj :: numsB).length id]) ++
        sentEvents id 0 (numsA ++ pj :: numsB).length numsA 0 := hev
  refine ⟨by simp [pauseStepRun, cmGet_cmDel_self],
    ⟨{ c' with currentIndex := numsA.length, isPaused := true, pausedAt := some now },
      by simp [pauseStepRun, cmGet_cmSet_self], by simp, hsent, hfail⟩,
    ?_, ?_⟩
  · simp only [pauseStepRun]
    omega
  · simp only [pauseStepRun]
    rw [hev']
    simp

theorem C9_pause_next_boundary_witness :
    cmGet (continueCampaign c9WitState "w9"
      (List.replicate (["a@c.us"] : List String).length okEnv ++
        pauseMidSendEnv :: ([] : List RecipEnv))
      5000).activeCampaigns "w9" = none ∧
    (∃ c'', cmGet (continueCampaign c9WitState "w9"
        (List.replicate (["a@c.us"] : List String).length okEnv ++
          pauseMidSendEnv :: ([] : List RecipEnv))
        5000).pausedCampaigns "w9" = some c'' ∧ c''.isPaused = true ∧
      c''.sentCount = (freshCampaign "w9" ["a@c.us", "b@c.us"] "m" "30-60" 0).sentCount +
        (["a@c.us"] : List String).length ∧
      c''.failedCount = (freshCampaign "w9" ["a@c.us", "b@c.us"] "m" "30-60" 0).failedCount) ∧
    (continueCampaign c9WitState "w9"
      (List.replicate (["a@c.us"] : List String).length okEnv ++
        pauseMidSendEnv :: ([] : List RecipEnv))
      5000).runningLoops = c9WitState.runningLoops ∧
    (continueCampaign c9WitState "w9"
      (List.replicate (["a@c.us"] : List String).length okEnv ++
        pauseMidSendEnv :: ([] : List RecipEnv))
      5000).events = c9WitState.events ++
      Event.bulkSendStart (freshCampaign "w9" ["a@c.us", "b@c.us"] "m" "30-60"
        0).phoneNumbers.length "w9" ::
        (sentEvents "w9" 0 (freshCampaign "w9" ["a@c.us", "b@c.us"] "m" "30-60"
            0).phoneNumbers.length ["a@c.us"] 0 ++
          [Event.messageSent "b@c.us" "sent" ((["a@c.us"] : List String).length + 1)
            (freshCampaign "w9" ["a@c.us", "b@c.us"] "m" "30-60"
              0).phoneNumbers.length (some "w9")]) :=
  C9_pause_next_boundary c9WitState "w9"
    (freshCampaign "w9" ["a@c.us", "b@c.us"] "m" "30-60" 0) 5000 ["a@c.us"] "b@c.us"
    [] [] (by decide) (by decide) (by decide) (by decide) (by decide) (by decide)

theorem C4_amended_no_queue_witness :
    cmGet (applyActions c4WitState [.submit "b1" ["b@c.us"] "hi" "30-60" 2000,
      .startLoop "b1" (List.replicate (["b@c.us"] : List String).length okEnv)
        3000]).activeCampaigns "b1" = none ∧
    (applyActions c4WitState [.submit "b1" ["b@c.us"] "hi" "30-60" 2000,
      .startLoop "b1" (List.replicate (["b@c.us"] : List String).length okEnv)
        3000]).runningLoops = c4WitState.runningLoops ∧
    (applyActions c4WitState [.submit "b1" ["b@c.us"] "hi" "30-60" 2000,
      .startLoop "b1" (List.replicate (["b@c.us"] : List String).length okEnv)
        3000]).events =
      c4WitState.events ++ Event.bulkSendStart (["b@c.us"] : List String).length "b1" ::
        Event.bulkSendStart (["b@c.us"] : List String).length "b1" ::
          (sentEvents "b1" 0 (["b@c.us"] : List String).length ["b@c.us"] 0 ++
            [Event.bulkSendComplete (["b@c.us"] : List String).length
              (["b@c.us"] : List String).length 0 0 0 0 (some "b1")]) :=
  C4_amended_no_queue c4WitState "b1" ["b@c.us"] "hi" "30-60" 2000 3000 (by decide)
    (by decide) (by decide) (by decide)

/-- The last event of a trace whose tail is a `bulk_send_start` followed by
loop progress/status events is never a completion event. -/
theorem block_last_not_complete (base : List Event) (N : Nat) (id : String)
    (es : List Event) (hall : es.all loopEventKind = true)
    (tot succ fail u cn g : Nat) (cid : Option String) :
    (base ++ Event.bulkSendStart N id :: es).getLast? ≠
      some (Event.bulkSendComplete tot succ fail u cn g cid) := by
  intro h
  rw [List.getLast?_append_of_ne_nil _ (by simp)] at h
  obtain ⟨l', hl⟩ := List.getLast?_eq_some_iff.mp h
  have hmem : (Event.bulkSendComplete tot succ fail u cn g cid) ∈
      Event.bulkSendStart N id :: es := by
    rw [hl]
    simp
  rcases List.mem_cons.mp hmem with h1 | h1
  · exact Event.noConfusion h1
  · have h2 := List.all_eq_true.mp hall _ h1
    simp [loopEventKind] at h2

/-- C1, repaired to what the code guarantees.  The global claim is false
(see the counterexample: a supervisory restart re-runs the full list and
pushes the counters past N), and even within one invocation the exact-N
completion is false (see `resume_race_undercounts`: a pause landing mid-send
loses an increment and a resume landing during the inter-message delay
re-activates the campaign, so the invocation completes reporting N-1 of N).
What a single `continueCampaign` invocation on a fresh campaign does
guarantee, under every pause/resume interleaving: the counter sum stays
bounded by the recipient count N wherever the campaign ends up; whenever the
invocation ends with a `bulk_send_complete` event for the campaign, the
event reports total N and `succ + fail ≤ N`; and an undisturbed run (no
interleaved requests, every send delivering) completes reporting exactly
`succ + fail = N`. -/
theorem C1_single_invocation_bound (s : ServerState) (id : String) (c : Campaign)
    (envs : List RecipEnv) (now : Nat)
    (hc : cmGet s.activeCampaigns id = some c) (hp : c.isPaused = false)
    (hs0 : c.sentCount = 0) (hf0 : c.failedCount = 0)
    (hpn : cmGet s.pausedCampaigns id = none)
    (hcp : s.clientPresent = true)
    (hr : s.isClientReady = true) (ha : s.isClientAuthenticated = true) :
    campBound (continueCampaign s id envs now) id c.phoneNumbers.length ∧
    (∀ tot succ fail u cn g,
      (continueCampaign s id envs now).events.getLast? =
        some (.bulkSendComplete tot succ fail u cn g (some id)) →
      tot = c.phoneNumbers.length ∧ succ + fail ≤ c.phoneNumbers.length) ∧
    (continueCampaign s id (List.replicate c.phoneNumbers.length okEnv) now).events =
      s.events ++ Event.bulkSendStart c.phoneNumbers.length id ::
        (sentEvents id 0 c.phoneNumbers.length c.phoneNumbers 0 ++
          [Event.bulkSendComplete c.phoneNumbers.length c.phoneNumbers.length 0
            0 0 0 (some id)]) := by
  have hok := (continueCampaign_okRun s id c now hc hp hcp hr ha).2.2.2
  rw [hs0, hf0] at hok
  simp only [Nat.zero_add] at hok
  rw [continueCampaign_run s id c envs now hc hp hr ha]
  obtain ⟨⟨rsf, ek⟩, hloop⟩ : ∃ p,
      loopGo (some id) 0 c.phoneNumbers.length now c.phoneNumbers envs 0
        ⟨{ emitEv s (.bulkSendStart c.phoneNumbers.length id) with
            runningLoops :=
              (emitEv s (.bulkSendStart c.phoneNumbers.length id)).runningLoops + 1 },
          [], 0, 0⟩ = p := ⟨_, rfl⟩
  have hA := loopGo_invariants id 0 c.phoneNumbers.length now c.phoneNumbers envs 0
    ⟨{ emitEv s (.bulkSendStart c.phoneNumbers.length id) with
        runningLoops :=
          (emitEv s (.bulkSendStart c.phoneNumbers.length id)).runningLoops + 1 },
      [], 0, 0⟩
  rw [hloop] at hA
  obtain ⟨⟨es, hes, hall⟩, hcb, hph⟩ := hA
  have hb0 : campBound { emitEv s (.bulkSendStart c.phoneNumbers.length id) with
      runningLoops :=
        (emitEv s (.bulkSendStart c.phoneNumbers.length id)).runningLoops + 1 } id 0 := by
    constructor
    · intro c1 hc1
      have h1 : cmGet s.activeCampaigns id = some c1 := hc1
      rw [hc] at h1
      injection h1 with h1
      subst h1
      omega
    · intro c1 hc1
      have h2 : cmGet s.pausedCampaigns id = some c1 := hc1
      rw [hpn] at h2
      exact Option.noConfusion h2
  have hn0 : campPhones { emitEv s (.bulkSendStart c.phoneNumbers.length id) with
      runningLoops :=
        (emitEv s (.bulkSendStart c.phoneNumbers.length id)).runningLoops + 1 } id
      c.phoneNumbers := by
    constructor
    · intro c1 hc1
      have h1 : cmGet s.activeCampaigns id = some c1 := hc1
      rw [hc] at h1
      injection h1 with h1
      subst h1
      rfl
    · intro c1 hc1
      have h2 : cmGet s.pausedCampaigns id = some c1 := hc1
      rw [hpn] at h2
      exact Option.noConfusion h2
  have hbN : campBound rsf.st id c.phoneNumbers.length := by
    have h3 := hcb 0 hb0
    exact campBound_mono _ _ _ _ (by omega) h3
  have hphf : campPhones rsf.st id c.phoneNumbers := hph c.phoneNumbers hn0
  have hesf : rsf.st.events =
      s.events ++ (Event.bulkSendStart c.phoneNumbers.length id :: es) := by
    rw [hes]
    show (s.events ++ [Event.bulkSendStart c.phoneNumbers.length id]) ++ es =
      s.events ++ (Event.bulkSendStart c.phoneNumbers.length id :: es)
    simp
  have hmain : campBound (sendMessagesSequentially
        (emitEv s (.bulkSendStart c.phoneNumbers.length id)) c.phoneNumbers (some id)
        0 envs now) id c.phoneNumbers.length ∧
      (∀ tot succ fail u cn g,
        (sendMessagesSequentially (emitEv s (.bulkSendStart c.phoneNumbers.length id))
          c.phoneNumbers (some id) 0 envs now).events.getLast? =
          some (.bulkSendComplete tot succ fail u cn g (some id)) →
        tot = c.phoneNumbers.length ∧ succ + fail ≤ c.phoneNumbers.length) := by
    cases ek with
    | hungExit =>
      rw [sendSeq_hung _ _ _ _ _ _ hloop]
      refine ⟨hbN, ?_⟩
      intro tot succ fail u cn g hlast
      rw [hesf] at hlast
      exact absurd hlast (block_last_not_complete s.events c.phoneNumbers.length id es
        hall tot succ fail u cn g (some id))
    | pausedExit =>
      rw [sendSeq_paused _ _ _ _ _ _ hloop]
      refine ⟨hbN, ?_⟩
      intro tot succ fail u cn g hlast
      have hlast2 : rsf.st.events.getLast? =
          some (Event.bulkSendComplete tot succ fail u cn g (some id)) := hlast
      rw [hesf] at hlast2
      exact absurd hlast2 (block_last_not_complete s.events c.phoneNumbers.length id es
        hall tot succ fail u cn g (some id))
    | finished =>
      obtain ⟨oc, hoc⟩ : ∃ o, cmGet rsf.st.activeCampaigns id = o := ⟨_, rfl⟩
      cases oc with
      | none =>
        rw [sendSeq_finished_inactive _ _ _ _ _ _ hloop hoc]
        refine ⟨hbN, ?_⟩
        intro tot succ fail u cn g hlast
        have hlast2 : rsf.st.events.getLast? =
            some (Event.bulkSendComplete tot succ fail u cn g (some id)) := hlast
        rw [hesf] at hlast2
        exact absurd hlast2 (block_last_not_complete s.events c.phoneNumbers.length id
          es hall tot succ fail u cn g (some id))
      | some cf =>
        rw [sendSeq_finished _ _ _ _ _ _ _ hloop hoc]
        refine ⟨⟨?_, ?_⟩, ?_⟩
        · intro c1 hc1
          have h4 : cmGet (cmDel rsf.st.activeCampaigns id) id = some c1 := hc1
          rw [cmGet_cmDel_self] at h4
          exact Option.noConfusion h4
        · intro c1 hc1
          exact hbN.2 c1 hc1
        · intro tot succ fail u cn g hlast
          have hlast2 : (rsf.st.events ++
              [Event.bulkSendComplete cf.phoneNumbers.length cf.sentCount
                cf.failedCount
                (rsf.results.filter (fun p => p.2 == "unavailable")).length
                (rsf.results.filter (fun p => p.2 == "connection")).length
                (rsf.results.filter (fun p => p.2 == "failed")).length
                (some id)]).getLast? =
              some (Event.bulkSendComplete tot succ fail u cn g (some id)) := hlast
          rw [List.getLast?_concat] at hlast2
          simp only [Option.some.injEq, Event.bulkSendComplete.injEq] at hlast2
          obtain ⟨h5, h6, h7, -, -, -, -⟩ := hlast2
          have hsum := hbN.1 cf hoc
          have hlen : cf.phoneNumbers.length = c.phoneNumbers.length := by
            rw [hphf.1 cf hoc]
          constructor
          · omega
          · omega
  exact ⟨hmain.1, hmain.2, hok⟩

/-- Witness for `C1_single_invocation_bound`: the one-recipient campaign of
`c1WitState`, run with a first-attempt success. -/
theorem C1_single_invocation_bound_witness :
    campBound (continueCampaign c1WitState "w1" [okEnv] 5) "w1"
      (freshCampaign "w1" ["a@c.us"] "m" "30-60" 0).phoneNumbers.length ∧
    (∀ tot succ fail u cn g,
      (continueCampaign c1WitState "w1" [okEnv] 5).events.getLast? =
        some (.bulkSendComplete tot succ fail u cn g (some "w1")) →
      tot = (freshCampaign "w1" ["a@c.us"] "m" "30-60" 0).phoneNumbers.length ∧
      succ + fail ≤ (freshCampaign "w1" ["a@c.us"] "m" "30-60" 0).phoneNumbers.length) ∧
    (continueCampaign c1WitState "w1"
      (List.replicate (freshCampaign "w1" ["a@c.us"] "m" "30-60"
        0).phoneNumbers.length okEnv) 5).events =
      c1WitState.events ++
        Event.bulkSendStart (freshCampaign "w1" ["a@c.us"] "m" "30-60"
          0).phoneNumbers.length "w1" ::
        (sentEvents "w1" 0 (freshCampaign "w1" ["a@c.us"] "m" "30-60"
            0).phoneNumbers.length
            (freshCampaign "w1" ["a@c.us"] "m" "30-60" 0).phoneNumbers 0 ++
          [Event.bulkSendComplete (freshCampaign "w1" ["a@c.us"] "m" "30-60"
              0).phoneNumbers.length
            (freshCampaign "w1" ["a@c.us"] "m" "30-60" 0).phoneNumbers.length 0
            0 0 0 (some "w1")]) :=
  C1_single_invocation_bound c1WitState "w1"
    (freshCampaign "w1" ["a@c.us"] "m" "30-60" 0) [okEnv] 5 (by decide) (by decide)
    (by decide) (by decide) (by decide) (by decide) (by decide) (by decide)

/-- The interleaving that defeats per-invocation completion exactness: on a
fresh two-recipient campaign, a pause request lands while recipient 0's send
is in flight (the success event is emitted but the increment is lost against
the paused pool), a resume request lands during the following inter-message
delay and re-activates the campaign before the resume handler crashes, and
recipient 1 then completes normally - the single invocation runs to the
completion block and emits `bulk_send_complete` reporting
`success + failed = 1` on a total of 2. -/
theorem resume_race_undercounts :
    (continueCampaign raceState "r1" raceEnvs 100).events.getLast? =
      some (.bulkSendComplete 2 1 0 0 0 0 (some "r1")) ∧
    cmGet (continueCampaign raceState "r1" raceEnvs 100).activeCampaigns "r1" =
      none := by
  decide

/-- C7: an exception thrown while sending to one recipient (here: every
attempt of the retry loop throws) is caught inside the loop body.  The error
is classified, the failure is recorded against that single recipient - the
campaign `failedCount` and the invocation failure counter grow by exactly
one, one progress event carrying the failure category is emitted - the
iteration hands control back to the loop instead of exiting it, and the loop
proceeds to the remaining recipients. -/
theorem C7_exception_contained (id : String) (st tl now : Nat) (pn : String)
    (atts : List AttemptResult) (e : String) (n : Nat) (i : Nat) (rs : RunState)
    (c : Campaign) (rest : List String) (envs : List RecipEnv)
    (hat : runSendAttempts atts 0 = .thrown e n)
    (hc : cmGet rs.st.activeCampaigns id = some c) (hp : c.isPaused = false)
    (hcp : rs.st.clientPresent = true) (hr : rs.st.isClientReady = true)
    (ha : rs.st.isClientAuthenticated = true) :
    stepRecipient (some id) st tl now pn ⟨false, false, false, true, atts⟩ i rs =
      ({ st := { rs.st with
            activeCampaigns := cmSet rs.st.activeCampaigns id
              { c with currentIndex := st + i, failedCount := c.failedCount + 1,
                       lastActivity := now },
            lastSuccessfulConnection := now, connectionFailureCount := 0,
            events := rs.st.events ++
              [.messageSent pn (classifyCatch e).1 (st + i + 1) (tl + st) (some id)] },
         results := rs.results ++ [(pn, (classifyCatch e).1)],
         successCount := rs.successCount,
         failureCount := rs.failureCount + 1 }, none) ∧
    loopGo (some id) st tl now (pn :: rest) (⟨false, false, false, true, atts⟩ :: envs) i rs =
      loopGo (some id) st tl now rest envs (i + 1)
        (stepRecipient (some id) st tl now pn ⟨false, false, false, true, atts⟩ i rs).1 := by
  have h1 : stepRecipient (some id) st tl now pn ⟨false, false, false, true, atts⟩ i rs =
      ({ st := { rs.st with
            activeCampaigns := cmSet rs.st.activeCampaigns id
              { c with currentIndex := st + i, failedCount := c.failedCount + 1,
                       lastActivity := now },
            lastSuccessfulConnection := now, connectionFailureCount := 0,
            events := rs.st.events ++
              [.messageSent pn (classifyCatch e).1 (st + i + 1) (tl + st) (some id)] },
         results := rs.results ++ [(pn, (classifyCatch e).1)],
         successCount := rs.successCount,
         failureCount := rs.failureCount + 1 }, none) := by
    simp [stepRecipient, validateConnection, recordFailure, emitEv, hat, hc, hp, hcp,
      hr, ha, cmGet_cmSet_self, cmSet_cmSet]
  refine ⟨h1, ?_⟩
  simp only [loopGo, List.headD_cons, List.tail_cons]
  rw [h1]

/-- Witness for `C7_exception_contained`: the two-recipient campaign of
`c7WitSt`, with every attempt for the first recipient throwing "boom". -/
theorem C7_exception_contained_witness :
    stepRecipient (some "w7") 0 2 5 "a@c.us" ⟨false, false, false, true, c7Atts⟩ 0 c7WitRun =
      ({ st := { c7WitRun.st with
            activeCampaigns := cmSet c7WitRun.st.activeCampaigns "w7"
              { c7WitCamp with currentIndex := 0 + 0,
                               failedCount := c7WitCamp.failedCount + 1,
                               lastActivity := 5 },
            lastSuccessfulConnection := 5, connectionFailureCount := 0,
            events := c7WitRun.st.events ++
              [.messageSent "a@c.us" (classifyCatch "boom").1 (0 + 0 + 1) (2 + 0)
                (some "w7")] },
         results := c7WitRun.results ++ [("a@c.us", (classifyCatch "boom").1)],
         successCount := c7WitRun.successCount,
         failureCount := c7WitRun.failureCount + 1 }, none) ∧
    loopGo (some "w7") 0 2 5 ("a@c.us" :: ["b@c.us"])
        (⟨false, false, false, true, c7Atts⟩ :: [okEnv]) 0 c7WitRun =
      loopGo (some "w7") 0 2 5 ["b@c.us"] [okEnv] (0 + 1)
        (stepRecipient (some "w7") 0 2 5 "a@c.us" ⟨false, false, false, true, c7Atts⟩ 0
          c7WitRun).1 :=
  C7_exception_contained "w7" 0 2 5 "a@c.us" c7Atts "boom" 3 0 c7WitRun c7WitCamp
    ["b@c.us"] [okEnv] (by decide) (by decide) (by decide) (by decide) (by decide)
    (by decide)

end WaServer
